import Mathlib

/-!
Verification of the message codec, control-protocol codec, options
validation, stdout line framer and stdin writer of a Go SDK that drives an
agent CLI over line-delimited JSON.

Modelling conventions, all fixed throughout the file:

* Go's `encoding/json` byte-level grammar belongs to the Go standard
  library, not to this repository; the codec functions are therefore
  embedded at the level of decoded JSON trees (`Json` below).  A Go
  `[]byte` holding one JSON document corresponds to one `Json` value;
  `json.Unmarshal` of a document into a struct corresponds to reading the
  tree, and `json.Marshal` of a struct corresponds to building the tree.
  Struct fields are emitted in declaration order, exactly as Go does.
* Go JSON numbers are modelled as `Int`.  The repository's codec never
  computes with numbers (it only passes `int` and `float64` fields
  through), so a float64 value is represented opaquely by an integer
  token; no claim in scope involves fractional literals.
* A Go `map[string]any` is modelled as an association list
  `List (String × Json)`; a `nil` map is `none` under `Option`.  Go
  serialises maps with sorted keys, which is invisible at the level of Go
  map values (maps compare by contents); field lists here are carried
  through unsorted, and no claim in scope depends on key order.
* A Go `nil` interface value is `Json.null`; a nil pointer is `none`.
* Go strings are modelled as `String` in message fields and as
  `List Char` inside the framer, whose byte counting and slicing coincide
  with character counting on the ASCII inputs the claims use.
* In-place mutation performed by the marshal functions is modelled by
  returning the post-call value of the argument next to the encoded tree.
-/

/-- Decoded JSON tree, the image of one `[]byte` JSON document under
Go's `encoding/json` when decoded into `interface\x7b\x7d`-shaped data. -/
inductive Json where
  | null : Json
  | bool (b : Bool) : Json
  | num (n : Int) : Json
  | str (s : String) : Json
  | arr (elems : List Json) : Json
  | obj (fields : List (String × Json)) : Json

mutual

/-- Boolean equality on JSON trees. -/
def Json.beq : Json → Json → Bool
  | .null, .null => true
  | .bool a, .bool b => a == b
  | .num a, .num b => a == b
  | .str a, .str b => a == b
  | .arr xs, .arr ys => Json.beqList xs ys
  | .obj fs, .obj gs => Json.beqFields fs gs
  | _, _ => false

/-- Boolean equality on JSON tree lists. -/
def Json.beqList : List Json → List Json → Bool
  | [], [] => true
  | x :: xs, y :: ys => Json.beq x y && Json.beqList xs ys
  | _, _ => false

/-- Boolean equality on JSON object field lists. -/
def Json.beqFields : List (String × Json) → List (String × Json) → Bool
  | [], [] => true
  | (k, v) :: fs, (l, w) :: gs => k == l && Json.beq v w && Json.beqFields fs gs
  | _, _ => false

end

theorem Json.beq_iff_all (n : Nat) :
    (∀ a b : Json, sizeOf a ≤ n → (Json.beq a b = true ↔ a = b)) ∧
    (∀ xs ys : List Json, sizeOf xs ≤ n → (Json.beqList xs ys = true ↔ xs = ys)) ∧
    (∀ fs gs : List (String × Json), sizeOf fs ≤ n →
      (Json.beqFields fs gs = true ↔ fs = gs)) := by
  induction n with
  | zero =>
    refine ⟨?_, ?_, ?_⟩
    · intro a b h; cases a <;> simp at h
    · intro xs ys h; cases xs <;> simp at h
    · intro fs gs h; cases fs <;> simp at h
  | succ n ih =>
    obtain ⟨ihj, ihl, ihf⟩ := ih
    refine ⟨?_, ?_, ?_⟩
    · intro a b h
      cases a <;> cases b <;> simp only [Json.beq] <;>
        first
          | (rename_i xs ys
             have hx := ihl xs ys (by simp at h; omega)
             simp [hx])
          | (rename_i fs gs
             have hx := ihf fs gs (by simp at h; omega)
             simp [hx])
          | simp
    · intro xs ys h
      cases xs with
      | nil => cases ys <;> simp [Json.beqList]
      | cons x xs =>
        cases ys with
        | nil => simp [Json.beqList]
        | cons y ys =>
          simp at h
          simp [Json.beqList, ihj x y (by omega), ihl xs ys (by omega)]
    · intro fs gs h
      cases fs with
      | nil => cases gs <;> simp [Json.beqFields]
      | cons f fs =>
        cases gs with
        | nil => simp [Json.beqFields]
        | cons g gs =>
          obtain ⟨k, v⟩ := f
          obtain ⟨l, w⟩ := g
          simp at h
          simp [Json.beqFields, ihj v w (by omega), ihf fs gs (by omega)]
          try tauto

instance : DecidableEq Json := fun a b =>
  decidable_of_iff _ ((Json.beq_iff_all (sizeOf a)).1 a b (Nat.le_refl _))

/-- Lookup of a key in a JSON object's field list, as `encoding/json` does
when populating a tagged struct field or indexing a decoded map.  The
concrete inputs used by the claims carry no duplicate keys, so first match
and Go's last-match policy coincide. -/
def getField : List (String × Json) → String → Option Json
  | [], _ => none
  | (k, v) :: fs, key => if k = key then some v else getField fs key

/-- Closed set of error kinds of the SDK's error taxonomy
(`internal/types`, errors file). -/
inductive ErrKind where
  | cliNotFound : ErrKind
  | cliConnection : ErrKind
  | process : ErrKind
  | jsonDecode : ErrKind
  | messageParse : ErrKind
  | controlProtocol : ErrKind
  | permissionDenied : ErrKind
deriving DecidableEq

/-- Go `error` values produced by the SDK: a typed SDK error with an
optional wrapped cause (`mk` for a nil cause, `wrap` otherwise, mirroring
`New*Error(message, cause)`), or a plain `error` from the standard
library / `fmt.Errorf` (`plain`). -/
inductive GoError where
  | plain (message : String) : GoError
  | mk (kind : ErrKind) (message : String) : GoError
  | wrap (kind : ErrKind) (message : String) (cause : GoError) : GoError
deriving DecidableEq

/-- Rendering of an error, mirroring each taxonomy type's `Error()`
method: `message` or `message: cause`. -/
def GoError.render : GoError → String
  | .plain m => m
  | .mk _ m => m
  | .wrap _ m c => m ++ ": " ++ GoError.render c

/-- Taxonomy kind of an error (`none` for a plain non-SDK error). -/
def GoError.kind : GoError → Option ErrKind
  | .plain _ => none
  | .mk k _ => some k
  | .wrap k _ _ => some k

/-- Wrapped cause of an error, mirroring `Unwrap()`. -/
def GoError.cause : GoError → Option GoError
  | .plain _ => none
  | .mk _ _ => none
  | .wrap _ _ c => some c

/-- Stand-in for the `*json.UnmarshalTypeError` value `encoding/json`
returns when a JSON value cannot be stored in the target Go field; its
exact text is produced by the Go standard library and is opaque here. -/
def unmarshalTypeError : GoError := .plain "json: cannot unmarshal value"

/-- Message `type` constants (constants file of `internal/types`). -/
def MessageTypeUser : String := "user"

def MessageTypeAssistant : String := "assistant"

def MessageTypeSystem : String := "system"

def MessageTypeResult : String := "result"

def MessageTypeStreamEvent : String := "stream_event"

/-- Content block `type` constants. -/
def ContentTypeText : String := "text"

def ContentTypeThinking : String := "thinking"

def ContentTypeToolUse : String := "tool_use"

def ContentTypeToolResult : String := "tool_result"

/-- Control envelope `type` constants. -/
def ControlTypeRequest : String := "control_request"

def ControlTypeResponse : String := "control_response"

def ControlResponseTypeSuccess : String := "success"

def ControlResponseTypeError : String := "error"

/-- Control request `subtype` constants. -/
def SubtypeInterrupt : String := "interrupt"

def SubtypeCanUseTool : String := "can_use_tool"

def SubtypeInitialize : String := "initialize"

def SubtypeSetPermissionMode : String := "set_permission_mode"

def SubtypeHookCallback : String := "hook_callback"

def SubtypeMCPMessage : String := "mcp_message"

/-- TextBlock struct (`messages.go`): tagged `type`, `text`. -/
structure TextBlock where
  type_ : String
  text : String
deriving DecidableEq

/-- ThinkingBlock struct: tagged `type`, `thinking`, `signature`. -/
structure ThinkingBlock where
  type_ : String
  thinking : String
  signature : String
deriving DecidableEq

/-- ToolUseBlock struct: tagged `type`, `id`, `name`, `input` (a
`map[string]any`, `none` for a nil map). -/
structure ToolUseBlock where
  type_ : String
  id : String
  name : String
  input : Option (List (String × Json))
deriving DecidableEq

/-- ToolResultBlock struct: tagged `type`, `tool_use_id`, optional
`content` (an `interface\x7b\x7d` with `omitempty`; `none` is Go's nil
interface) and optional `is_error` (`*bool` with `omitempty`). -/
structure ToolResultBlock where
  type_ : String
  toolUseID : String
  content : Option Json
  isError : Option Bool
deriving DecidableEq

/-- The closed set of content block variants behind the Go `ContentBlock`
interface. -/
inductive ContentBlock where
  | text (b : TextBlock) : ContentBlock
  | thinking (b : ThinkingBlock) : ContentBlock
  | toolUse (b : ToolUseBlock) : ContentBlock
  | toolResult (b : ToolResultBlock) : ContentBlock
deriving DecidableEq

/-- Canonical tag of a content block variant, mirroring each variant's
`Type()` method, which returns the constant regardless of the stored
`Type_` field. -/
def ContentBlock.tag : ContentBlock → String
  | .text _ => ContentTypeText
  | .thinking _ => ContentTypeThinking
  | .toolUse _ => ContentTypeToolUse
  | .toolResult _ => ContentTypeToolResult

/-- Reading a `string`-typed struct field from an object's field list:
an absent key or JSON `null` leaves the zero value `""`; a JSON string
stores the string; any other value is an `UnmarshalTypeError` (`none`). -/
def getStrDefault (fs : List (String × Json)) (key : String) : Option String :=
  match getField fs key with
  | none => some ""
  | some .null => some ""
  | some (.str s) => some s
  | some _ => none

/-- Reading an `int`-typed struct field: absent or `null` leaves 0. -/
def getIntDefault (fs : List (String × Json)) (key : String) : Option Int :=
  match getField fs key with
  | none => some 0
  | some .null => some 0
  | some (.num n) => some n
  | some _ => none

/-- Reading a `bool`-typed struct field: absent or `null` leaves `false`. -/
def getBoolDefault (fs : List (String × Json)) (key : String) : Option Bool :=
  match getField fs key with
  | none => some false
  | some .null => some false
  | some (.bool b) => some b
  | some _ => none

/-- Reading a `*string` struct field: absent or `null` leaves the nil
pointer. -/
def getOptStr (fs : List (String × Json)) (key : String) :
    Option (Option String) :=
  match getField fs key with
  | none => some none
  | some .null => some none
  | some (.str s) => some (some s)
  | some _ => none

/-- Reading a `*float64` struct field (numbers modelled as `Int`). -/
def getOptNum (fs : List (String × Json)) (key : String) :
    Option (Option Int) :=
  match getField fs key with
  | none => some none
  | some .null => some none
  | some (.num n) => some (some n)
  | some _ => none

/-- Reading a `*bool` struct field. -/
def getOptBool (fs : List (String × Json)) (key : String) :
    Option (Option Bool) :=
  match getField fs key with
  | none => some none
  | some .null => some none
  | some (.bool b) => some (some b)
  | some _ => none

/-- Reading a `map[string]any` struct field: absent or `null` leaves the
nil map (`none`); a JSON object gives the decoded map. -/
def getMapDefault (fs : List (String × Json)) (key : String) :
    Option (Option (List (String × Json))) :=
  match getField fs key with
  | none => some none
  | some .null => some none
  | some (.obj l) => some (some l)
  | some _ => none

/-- Reading a `[]json.RawMessage` struct field: absent or `null` leaves a
nil slice, over which the caller ranges as an empty list. -/
def getListDefault (fs : List (String × Json)) (key : String) :
    Option (List Json) :=
  match getField fs key with
  | none => some []
  | some .null => some []
  | some (.arr xs) => some xs
  | some _ => none

/-- Reading an `interface\x7b\x7d` struct field without `omitempty`: any
JSON value is stored; an absent key leaves the nil interface (`null`). -/
def getAnyDefault (fs : List (String × Json)) (key : String) : Json :=
  match getField fs key with
  | none => .null
  | some j => j

/-- Reading an `interface\x7b\x7d` struct field with `omitempty` on the
marshal side: absent key and JSON `null` both leave the nil interface,
modelled as `none`. -/
def getOptAny (fs : List (String × Json)) (key : String) : Option Json :=
  match getField fs key with
  | none => none
  | some .null => none
  | some j => some j

/-- Reading a `[]interface\x7b\x7d` struct field: absent or `null` leaves
the nil slice (`none`). -/
def getOptList (fs : List (String × Json)) (key : String) :
    Option (Option (List Json)) :=
  match getField fs key with
  | none => some none
  | some .null => some none
  | some (.arr xs) => some (some xs)
  | some _ => none

/-- The `type` peek both `UnmarshalMessage` and `UnmarshalContentBlock`
perform: `json.Unmarshal` of the document into a one-field struct
`\x7bType string\x7d`.  `none` models the decode error for a document that
is not an object (or whose `type` is not a string); JSON `null` is a
no-op leaving the zero value. -/
def peekType (j : Json) : Option String :=
  match j with
  | .obj fs => getStrDefault fs "type"
  | .null => some ""
  | _ => none

/-- Decoding a document into `TextBlock`. -/
def decodeTextBlock (j : Json) : Except GoError ContentBlock :=
  match j with
  | .obj fs =>
    match getStrDefault fs "type", getStrDefault fs "text" with
    | some t, some x => .ok (.text ⟨t, x⟩)
    | _, _ => .error (.wrap .jsonDecode "failed to decode text block" unmarshalTypeError)
  | .null => .ok (.text ⟨"", ""⟩)
  | _ => .error (.wrap .jsonDecode "failed to decode text block" unmarshalTypeError)

/-- Decoding a document into `ThinkingBlock`. -/
def decodeThinkingBlock (j : Json) : Except GoError ContentBlock :=
  match j with
  | .obj fs =>
    match getStrDefault fs "type", getStrDefault fs "thinking",
        getStrDefault fs "signature" with
    | some t, some th, some sg => .ok (.thinking ⟨t, th, sg⟩)
    | _, _, _ =>
      .error (.wrap .jsonDecode "failed to decode thinking block" unmarshalTypeError)
  | .null => .ok (.thinking ⟨"", "", ""⟩)
  | _ => .error (.wrap .jsonDecode "failed to decode thinking block" unmarshalTypeError)

/-- Decoding a document into `ToolUseBlock`. -/
def decodeToolUseBlock (j : Json) : Except GoError ContentBlock :=
  match j with
  | .obj fs =>
    match getStrDefault fs "type", getStrDefault fs "id",
        getStrDefault fs "name", getMapDefault fs "input" with
    | some t, some i, some n, some inp => .ok (.toolUse ⟨t, i, n, inp⟩)
    | _, _, _, _ =>
      .error (.wrap .jsonDecode "failed to decode tool_use block" unmarshalTypeError)
  | .null => .ok (.toolUse ⟨"", "", "", none⟩)
  | _ => .error (.wrap .jsonDecode "failed to decode tool_use block" unmarshalTypeError)

/-- Decoding a document into `ToolResultBlock`. -/
def decodeToolResultBlock (j : Json) : Except GoError ContentBlock :=
  match j with
  | .obj fs =>
    match getStrDefault fs "type", getStrDefault fs "tool_use_id",
        getOptBool fs "is_error" with
    | some t, some u, some e => .ok (.toolResult ⟨t, u, getOptAny fs "content", e⟩)
    | _, _, _ =>
      .error (.wrap .jsonDecode "failed to decode tool_result block" unmarshalTypeError)
  | .null => .ok (.toolResult ⟨"", "", none, none⟩)
  | _ => .error (.wrap .jsonDecode "failed to decode tool_result block" unmarshalTypeError)

/-- UnmarshalContentBlock (`messages.go`): peek `type`, dispatch on the
closed set of block tags, reject unknown tags with a message-parse error
carrying the offending tag. -/
def UnmarshalContentBlock (j : Json) : Except GoError ContentBlock :=
  match peekType j with
  | none =>
    .error (.wrap .jsonDecode "failed to decode content block type" unmarshalTypeError)
  | some t =>
    if t = ContentTypeText then decodeTextBlock j
    else if t = ContentTypeThinking then decodeThinkingBlock j
    else if t = ContentTypeToolUse then decodeToolUseBlock j
    else if t = ContentTypeToolResult then decodeToolResultBlock j
    else .error (.mk .messageParse ("unknown content block type: " ++ t))

/-- MarshalContentBlock (`messages.go`).  Go first assigns the canonical
tag to the block's `Type_` field in place and then serialises the struct;
the returned pair is (post-call value of the argument, encoded document).
The Go `default` branch (a foreign implementation of the `ContentBlock`
interface) has no counterpart in the closed sum and cannot be reached. -/
def MarshalContentBlock (b : ContentBlock) : ContentBlock × Json :=
  match b with
  | .text t =>
    let t' : TextBlock := { t with type_ := ContentTypeText }
    (.text t', .obj [("type", .str t'.type_), ("text", .str t'.text)])
  | .thinking t =>
    let t' : ThinkingBlock := { t with type_ := ContentTypeThinking }
    (.thinking t',
      .obj [("type", .str t'.type_), ("thinking", .str t'.thinking),
            ("signature", .str t'.signature)])
  | .toolUse t =>
    let t' : ToolUseBlock := { t with type_ := ContentTypeToolUse }
    (.toolUse t',
      .obj [("type", .str t'.type_), ("id", .str t'.id), ("name", .str t'.name),
            ("input", match t'.input with
                      | none => .null
                      | some l => .obj l)])
  | .toolResult t =>
    let t' : ToolResultBlock := { t with type_ := ContentTypeToolResult }
    (.toolResult t',
      .obj ([("type", .str t'.type_), ("tool_use_id", .str t'.toolUseID)] ++
        (match t'.content with
         | none => []
         | some c => [("content", c)]) ++
        (match t'.isError with
         | none => []
         | some e => [("is_error", .bool e)])))

/-- The dynamic `content` field of a user message after decoding: a raw
string, a decoded block sequence, or any other JSON value preserved
unchanged (`processUserContent` falls through for those). -/
inductive UserContent where
  | str (s : String) : UserContent
  | blocks (bs : List ContentBlock) : UserContent
  | other (j : Json) : UserContent
deriving DecidableEq

/-- UserMessage struct: tagged `type`, dynamic `content`, optional
`parent_tool_use_id`. -/
structure UserMessage where
  type_ : String
  content : UserContent
  parentToolUseID : Option String
deriving DecidableEq

/-- AssistantMessage struct: tagged `type`, block sequence `content`,
`model`, optional `parent_tool_use_id`. -/
structure AssistantMessage where
  type_ : String
  content : List ContentBlock
  model : String
  parentToolUseID : Option String
deriving DecidableEq

/-- SystemMessage struct: tagged `type`, `subtype`, free-form `data`
mapping (no `omitempty`; `none` is Go's nil map). -/
structure SystemMessage where
  type_ : String
  subtype : String
  data : Option (List (String × Json))
deriving DecidableEq

/-- ResultMessage struct: tagged `type` plus duration, error flag, turn
count, session id, and optional cost / usage / result fields. -/
structure ResultMessage where
  type_ : String
  subtype : String
  durationMS : Int
  durationAPIMS : Int
  isError : Bool
  numTurns : Int
  sessionID : String
  totalCostUSD : Option Int
  usage : Option (List (String × Json))
  result : Option String
deriving DecidableEq

/-- StreamEvent struct: tagged `type`, `uuid`, `session_id`, free-form
`event` mapping, optional `parent_tool_use_id`. -/
structure StreamEvent where
  type_ : String
  uuid : String
  sessionID : String
  event : Option (List (String × Json))
  parentToolUseID : Option String
deriving DecidableEq

/-- The closed set of message variants behind the Go `Message`
interface. -/
inductive Message where
  | user (m : UserMessage) : Message
  | assistant (m : AssistantMessage) : Message
  | system (m : SystemMessage) : Message
  | result (m : ResultMessage) : Message
  | streamEvent (m : StreamEvent) : Message
deriving DecidableEq

/-- Canonical tag of a message variant, mirroring each variant's `Type()`
method. -/
def Message.tag : Message → String
  | .user _ => MessageTypeUser
  | .assistant _ => MessageTypeAssistant
  | .system _ => MessageTypeSystem
  | .result _ => MessageTypeResult
  | .streamEvent _ => MessageTypeStreamEvent

/-- Sequential decoding of raw block documents, as the loops in
`processUserContent` and `unmarshalAssistantMessage` do; the first block
error aborts and is returned unwrapped. -/
def decodeBlocks : List Json → Except GoError (List ContentBlock)
  | [] => .ok []
  | x :: xs => do
    let b ← UnmarshalContentBlock x
    let bs ← decodeBlocks xs
    .ok (b :: bs)

/-- processUserContent (`messages.go`): keep a string as-is, decode an
array elementwise into blocks (Go re-serialises each element and calls
`UnmarshalContentBlock`, which is the identity at tree level), preserve
any other value unchanged. -/
def processUserContent (c : Json) : Except GoError UserContent :=
  match c with
  | .str s => .ok (.str s)
  | .arr items => (decodeBlocks items).map .blocks
  | j => .ok (.other j)

/-- unmarshalUserMessage: decode the struct (with `content` as a raw
`interface\x7b\x7d`), then post-process the content. -/
def unmarshalUserMessage (j : Json) : Except GoError Message :=
  match j with
  | .obj fs =>
    match getStrDefault fs "type", getOptStr fs "parent_tool_use_id" with
    | some t, some p =>
      (processUserContent (getAnyDefault fs "content")).map
        (fun c => .user ⟨t, c, p⟩)
    | _, _ =>
      .error (.wrap .jsonDecode "failed to decode user message" unmarshalTypeError)
  | .null => .ok (.user ⟨"", .other .null, none⟩)
  | _ => .error (.wrap .jsonDecode "failed to decode user message" unmarshalTypeError)

/-- unmarshalAssistantMessage: decode the struct with `content` as a list
of raw documents (the initial decode into `json.RawMessage` is the
identity at tree level), then decode each block; block errors propagate
unwrapped. -/
def unmarshalAssistantMessage (j : Json) : Except GoError Message :=
  match j with
  | .obj fs =>
    match getStrDefault fs "type", getListDefault fs "content",
        getStrDefault fs "model", getOptStr fs "parent_tool_use_id" with
    | some t, some items, some mdl, some p =>
      (decodeBlocks items).map (fun bs => .assistant ⟨t, bs, mdl, p⟩)
    | _, _, _, _ =>
      .error (.wrap .jsonDecode "failed to decode assistant message structure"
        unmarshalTypeError)
  | .null => .ok (.assistant ⟨"", [], "", none⟩)
  | _ =>
    .error (.wrap .jsonDecode "failed to decode assistant message structure"
      unmarshalTypeError)

/-- Decoding a document into `SystemMessage`. -/
def decodeSystemMessage (j : Json) : Except GoError Message :=
  match j with
  | .obj fs =>
    match getStrDefault fs "type", getStrDefault fs "subtype",
        getMapDefault fs "data" with
    | some t, some st, some d => .ok (.system ⟨t, st, d⟩)
    | _, _, _ =>
      .error (.wrap .jsonDecode "failed to decode system message" unmarshalTypeError)
  | .null => .ok (.system ⟨"", "", none⟩)
  | _ => .error (.wrap .jsonDecode "failed to decode system message" unmarshalTypeError)

/-- Decoding a document into `ResultMessage`. -/
def decodeResultMessage (j : Json) : Except GoError Message :=
  match j with
  | .obj fs =>
    match getStrDefault fs "type", getStrDefault fs "subtype",
        getIntDefault fs "duration_ms", getIntDefault fs "duration_api_ms",
        getBoolDefault fs "is_error", getIntDefault fs "num_turns",
        getStrDefault fs "session_id", getOptNum fs "total_cost_usd",
        getMapDefault fs "usage", getOptStr fs "result" with
    | some t, some st, some dm, some da, some ie, some nt, some sid, some tc,
        some us, some r =>
      .ok (.result ⟨t, st, dm, da, ie, nt, sid, tc, us, r⟩)
    | _, _, _, _, _, _, _, _, _, _ =>
      .error (.wrap .jsonDecode "failed to decode result message" unmarshalTypeError)
  | .null => .ok (.result ⟨"", "", 0, 0, false, 0, "", none, none, none⟩)
  | _ => .error (.wrap .jsonDecode "failed to decode result message" unmarshalTypeError)

/-- Decoding a document into `StreamEvent`. -/
def decodeStreamEvent (j : Json) : Except GoError Message :=
  match j with
  | .obj fs =>
    match getStrDefault fs "type", getStrDefault fs "uuid",
        getStrDefault fs "session_id", getMapDefault fs "event",
        getOptStr fs "parent_tool_use_id" with
    | some t, some u, some sid, some ev, some p =>
      .ok (.streamEvent ⟨t, u, sid, ev, p⟩)
    | _, _, _, _, _ =>
      .error (.wrap .jsonDecode "failed to decode stream event" unmarshalTypeError)
  | .null => .ok (.streamEvent ⟨"", "", "", none, none⟩)
  | _ => .error (.wrap .jsonDecode "failed to decode stream event" unmarshalTypeError)

/-- UnmarshalMessage (`messages.go`): peek `type`, dispatch on the closed
set of message tags, reject unknown tags with a message-parse error
carrying the offending tag. -/
def UnmarshalMessage (j : Json) : Except GoError Message :=
  match peekType j with
  | none =>
    .error (.wrap .jsonDecode "failed to decode message type" unmarshalTypeError)
  | some t =>
    if t = MessageTypeUser then unmarshalUserMessage j
    else if t = MessageTypeAssistant then unmarshalAssistantMessage j
    else if t = MessageTypeSystem then decodeSystemMessage j
    else if t = MessageTypeResult then decodeResultMessage j
    else if t = MessageTypeStreamEvent then decodeStreamEvent j
    else .error (.mk .messageParse ("unknown message type: " ++ t))

/-- marshalContentBlocks: serialise each block (mutating its tag in
place) and collect the encoded objects; the decode of the marshalled
bytes back into `interface\x7b\x7d` is the identity at tree level. -/
def marshalContentBlocks (bs : List ContentBlock) :
    List ContentBlock × List Json :=
  match bs with
  | [] => ([], [])
  | b :: rest =>
    let (b', j) := MarshalContentBlock b
    let (rest', js) := marshalContentBlocks rest
    (b' :: rest', j :: js)

/-- Emission of a `*string` field with `omitempty`: a nil pointer is
omitted. -/
def encOptStr (key : String) (v : Option String) : List (String × Json) :=
  match v with
  | none => []
  | some s => [(key, .str s)]

/-- Emission of a `map[string]any` field without `omitempty`: a nil map
serialises as `null`. -/
def encMapNullable (v : Option (List (String × Json))) : Json :=
  match v with
  | none => .null
  | some fs => .obj fs

/-- Emission of a `map[string]any` field with `omitempty`: nil and empty
maps are omitted. -/
def encOmitMap (key : String) (v : Option (List (String × Json))) :
    List (String × Json) :=
  match v with
  | none => []
  | some [] => []
  | some fs => [(key, .obj fs)]

/-- marshalUserMessage: set the canonical tag in place; if the content is
a block sequence, marshal the blocks (mutating their tags through the
shared pointers) and emit via the temporary struct, otherwise serialise
the struct directly with the dynamic content emitted as-is. -/
def marshalUserMessage (m : UserMessage) : UserMessage × Json :=
  let m1 : UserMessage := { m with type_ := MessageTypeUser }
  match m1.content with
  | .blocks bs =>
    let (bs', js) := marshalContentBlocks bs
    ({ m1 with content := .blocks bs' },
      .obj ([("type", .str m1.type_), ("content", .arr js)] ++
        encOptStr "parent_tool_use_id" m1.parentToolUseID))
  | .str s =>
    (m1, .obj ([("type", .str m1.type_), ("content", .str s)] ++
      encOptStr "parent_tool_use_id" m1.parentToolUseID))
  | .other j =>
    (m1, .obj ([("type", .str m1.type_), ("content", j)] ++
      encOptStr "parent_tool_use_id" m1.parentToolUseID))

/-- marshalAssistantMessage: set the canonical tag in place, marshal the
blocks (mutating their tags through the shared pointers), emit via the
temporary struct. -/
def marshalAssistantMessage (m : AssistantMessage) : AssistantMessage × Json :=
  let m1 : AssistantMessage := { m with type_ := MessageTypeAssistant }
  let (bs', js) := marshalContentBlocks m1.content
  ({ m1 with content := bs' },
    .obj ([("type", .str m1.type_), ("content", .arr js),
           ("model", .str m1.model)] ++
      encOptStr "parent_tool_use_id" m1.parentToolUseID))

/-- MarshalMessage (`messages.go`): set the canonical tag in place and
serialise the variant struct; the pair is (post-call value of the
argument, encoded document).  The Go `default` branch is unreachable in
the closed sum. -/
def MarshalMessage (m : Message) : Message × Json :=
  match m with
  | .user u =>
    let (u', j) := marshalUserMessage u
    (.user u', j)
  | .assistant a =>
    let (a', j) := marshalAssistantMessage a
    (.assistant a', j)
  | .system s =>
    let s' : SystemMessage := { s with type_ := MessageTypeSystem }
    (.system s',
      .obj [("type", .str s'.type_), ("subtype", .str s'.subtype),
            ("data", encMapNullable s'.data)])
  | .result r =>
    let r' : ResultMessage := { r with type_ := MessageTypeResult }
    (.result r',
      .obj ([("type", .str r'.type_), ("subtype", .str r'.subtype),
             ("duration_ms", .num r'.durationMS),
             ("duration_api_ms", .num r'.durationAPIMS),
             ("is_error", .bool r'.isError),
             ("num_turns", .num r'.numTurns),
             ("session_id", .str r'.sessionID)] ++
        (match r'.totalCostUSD with
         | none => []
         | some c => [("total_cost_usd", .num c)]) ++
        encOmitMap "usage" r'.usage ++
        encOptStr "result" r'.result))
  | .streamEvent e =>
    let e' : StreamEvent := { e with type_ := MessageTypeStreamEvent }
    (.streamEvent e',
      .obj ([("type", .str e'.type_), ("uuid", .str e'.uuid),
             ("session_id", .str e'.sessionID),
             ("event", encMapNullable e'.event)] ++
        encOptStr "parent_tool_use_id" e'.parentToolUseID))

/-- SDKControlRequest wrapper struct (`control.go`): envelope `type`,
`request_id`, nested raw `request`. -/
structure SDKControlRequest where
  type_ : String
  id : String
  request : Json
deriving DecidableEq

/-- InterruptRequest variant struct. -/
structure InterruptRequest where
  subtype : String
deriving DecidableEq

/-- PermissionRequest variant struct (`can_use_tool`). -/
structure PermissionRequest where
  subtype : String
  toolName : String
  input : Option (List (String × Json))
  permissionSuggestions : Option (List Json)
  blockedPath : Option String
deriving DecidableEq

/-- InitializeRequest variant struct. -/
structure InitializeRequest where
  subtype : String
  hooks : Option (List (String × Json))
deriving DecidableEq

/-- SetPermissionModeRequest variant struct. -/
structure SetPermissionModeRequest where
  subtype : String
  mode : String
deriving DecidableEq

/-- HookCallbackRequest variant struct. -/
structure HookCallbackRequest where
  subtype : String
  callbackID : String
  input : Json
  toolUseID : Option String
deriving DecidableEq

/-- MCPMessageRequest variant struct. -/
structure MCPMessageRequest where
  subtype : String
  serverName : String
  message : Json
deriving DecidableEq

/-- The wrapper values `UnmarshalControlRequest` returns: each pairs the
decoded envelope with the decoded variant struct, mirroring the
`*RequestWrapper` types of `control.go`. -/
inductive ControlRequestW where
  | interrupt (wrapper : SDKControlRequest) (request : InterruptRequest) : ControlRequestW
  | permission (wrapper : SDKControlRequest) (request : PermissionRequest) : ControlRequestW
  | initCtl (wrapper : SDKControlRequest) (request : InitializeRequest) : ControlRequestW
  | setPermissionMode (wrapper : SDKControlRequest)
      (request : SetPermissionModeRequest) : ControlRequestW
  | hookCallback (wrapper : SDKControlRequest)
      (request : HookCallbackRequest) : ControlRequestW
  | mcpMessage (wrapper : SDKControlRequest)
      (request : MCPMessageRequest) : ControlRequestW
deriving DecidableEq

/-- The `Type()` method of each wrapper, which delegates to the variant's
`Type()` and hence returns the canonical subtype constant. -/
def ControlRequestW.tag : ControlRequestW → String
  | .interrupt _ _ => SubtypeInterrupt
  | .permission _ _ => SubtypeCanUseTool
  | .initCtl _ _ => SubtypeInitialize
  | .setPermissionMode _ _ => SubtypeSetPermissionMode
  | .hookCallback _ _ => SubtypeHookCallback
  | .mcpMessage _ _ => SubtypeMCPMessage

/-- The `RequestID()` method of each wrapper: the envelope's stored id. -/
def ControlRequestW.requestID : ControlRequestW → String
  | .interrupt w _ => w.id
  | .permission w _ => w.id
  | .initCtl w _ => w.id
  | .setPermissionMode w _ => w.id
  | .hookCallback w _ => w.id
  | .mcpMessage w _ => w.id

/-- The envelope stored in a wrapper. -/
def ControlRequestW.envelope : ControlRequestW → SDKControlRequest
  | .interrupt w _ => w
  | .permission w _ => w
  | .initCtl w _ => w
  | .setPermissionMode w _ => w
  | .hookCallback w _ => w
  | .mcpMessage w _ => w

/-- Replacement of the stored envelope `type` string in a wrapper,
leaving everything else unchanged. -/
def ControlRequestW.setEnvType (w : ControlRequestW) (t : String) :
    ControlRequestW :=
  match w with
  | .interrupt e r => .interrupt { e with type_ := t } r
  | .permission e r => .permission { e with type_ := t } r
  | .initCtl e r => .initCtl { e with type_ := t } r
  | .setPermissionMode e r => .setPermissionMode { e with type_ := t } r
  | .hookCallback e r => .hookCallback { e with type_ := t } r
  | .mcpMessage e r => .mcpMessage { e with type_ := t } r

/-- Decoding the outer `SDKControlRequest` envelope struct from a
document. -/
def decodeSDKControlRequest (j : Json) : Except GoError SDKControlRequest :=
  match j with
  | .obj fs =>
    match getStrDefault fs "type", getStrDefault fs "request_id" with
    | some t, some i => .ok ⟨t, i, getAnyDefault fs "request"⟩
    | _, _ =>
      .error (.wrap .jsonDecode "failed to decode control request wrapper"
        unmarshalTypeError)
  | .null => .ok ⟨"", "", .null⟩
  | _ =>
    .error (.wrap .jsonDecode "failed to decode control request wrapper"
      unmarshalTypeError)

/-- extractSubtype (`control.go`): re-serialise the nested request value
(which never fails for JSON-derived data and is the identity at tree
level) and read its `subtype` string. -/
def extractSubtype (request : Json) : Except GoError String :=
  match request with
  | .obj fs =>
    match getStrDefault fs "subtype" with
    | some s => .ok s
    | none =>
      .error (.wrap .jsonDecode "failed to decode control request subtype"
        unmarshalTypeError)
  | .null => .ok ""
  | _ =>
    .error (.wrap .jsonDecode "failed to decode control request subtype"
      unmarshalTypeError)

/-- Decoding the nested request document into `InterruptRequest`. -/
def decodeInterruptRequest (j : Json) : Except GoError InterruptRequest :=
  match j with
  | .obj fs =>
    match getStrDefault fs "subtype" with
    | some s => .ok ⟨s⟩
    | none => .error (.wrap .jsonDecode "failed to decode interrupt request"
        unmarshalTypeError)
  | .null => .ok ⟨""⟩
  | _ => .error (.wrap .jsonDecode "failed to decode interrupt request"
      unmarshalTypeError)

/-- Decoding the nested request document into `PermissionRequest`. -/
def decodePermissionRequest (j : Json) : Except GoError PermissionRequest :=
  match j with
  | .obj fs =>
    match getStrDefault fs "subtype", getStrDefault fs "tool_name",
        getMapDefault fs "input", getOptList fs "permission_suggestions",
        getOptStr fs "blocked_path" with
    | some s, some tn, some inp, some ps, some bp => .ok ⟨s, tn, inp, ps, bp⟩
    | _, _, _, _, _ =>
      .error (.wrap .jsonDecode "failed to decode permission request"
        unmarshalTypeError)
  | .null => .ok ⟨"", "", none, none, none⟩
  | _ => .error (.wrap .jsonDecode "failed to decode permission request"
      unmarshalTypeError)

/-- Decoding the nested request document into `InitializeRequest`. -/
def decodeInitializeRequest (j : Json) : Except GoError InitializeRequest :=
  match j with
  | .obj fs =>
    match getStrDefault fs "subtype", getMapDefault fs "hooks" with
    | some s, some h => .ok ⟨s, h⟩
    | _, _ =>
      .error (.wrap .jsonDecode "failed to decode initialize request"
        unmarshalTypeError)
  | .null => .ok ⟨"", none⟩
  | _ => .error (.wrap .jsonDecode "failed to decode initialize request"
      unmarshalTypeError)

/-- Decoding the nested request document into `SetPermissionModeRequest`. -/
def decodeSetPermissionModeRequest (j : Json) :
    Except GoError SetPermissionModeRequest :=
  match j with
  | .obj fs =>
    match getStrDefault fs "subtype", getStrDefault fs "mode" with
    | some s, some m => .ok ⟨s, m⟩
    | _, _ =>
      .error (.wrap .jsonDecode "failed to decode set permission mode request"
        unmarshalTypeError)
  | .null => .ok ⟨"", ""⟩
  | _ => .error (.wrap .jsonDecode "failed to decode set permission mode request"
      unmarshalTypeError)

/-- Decoding the nested request document into `HookCallbackRequest`. -/
def decodeHookCallbackRequest (j : Json) : Except GoError HookCallbackRequest :=
  match j with
  | .obj fs =>
    match getStrDefault fs "subtype", getStrDefault fs "callback_id",
        getOptStr fs "tool_use_id" with
    | some s, some cid, some tid => .ok ⟨s, cid, getAnyDefault fs "input", tid⟩
    | _, _, _ =>
      .error (.wrap .jsonDecode "failed to decode hook callback request"
        unmarshalTypeError)
  | .null => .ok ⟨"", "", .null, none⟩
  | _ => .error (.wrap .jsonDecode "failed to decode hook callback request"
      unmarshalTypeError)

/-- Decoding the nested request document into `MCPMessageRequest`. -/
def decodeMCPMessageRequest (j : Json) : Except GoError MCPMessageRequest :=
  match j with
  | .obj fs =>
    match getStrDefault fs "subtype", getStrDefault fs "server_name" with
    | some s, some sn => .ok ⟨s, sn, getAnyDefault fs "message"⟩
    | _, _ =>
      .error (.wrap .jsonDecode "failed to decode mcp message request"
        unmarshalTypeError)
  | .null => .ok ⟨"", "", .null⟩
  | _ => .error (.wrap .jsonDecode "failed to decode mcp message request"
      unmarshalTypeError)

/-- UnmarshalControlRequest (`control.go`): decode the envelope, extract
the nested `subtype`, and dispatch on the closed set of six subtypes;
an unknown subtype yields a message-parse error carrying the offending
subtype.  The envelope's outer `type` string is stored but never
inspected. -/
def UnmarshalControlRequest (j : Json) : Except GoError ControlRequestW := do
  let w ← decodeSDKControlRequest j
  let s ← extractSubtype w.request
  if s = SubtypeInterrupt then
    (decodeInterruptRequest w.request).map (fun r => .interrupt w r)
  else if s = SubtypeCanUseTool then
    (decodePermissionRequest w.request).map (fun r => .permission w r)
  else if s = SubtypeInitialize then
    (decodeInitializeRequest w.request).map (fun r => .initCtl w r)
  else if s = SubtypeSetPermissionMode then
    (decodeSetPermissionModeRequest w.request).map
      (fun r => .setPermissionMode w r)
  else if s = SubtypeHookCallback then
    (decodeHookCallbackRequest w.request).map (fun r => .hookCallback w r)
  else if s = SubtypeMCPMessage then
    (decodeMCPMessageRequest w.request).map (fun r => .mcpMessage w r)
  else
    .error (.mk .messageParse ("unknown control request subtype: " ++ s))

/-- SuccessResponse struct: `subtype`, `request_id`, optional payload
mapping (`omitempty`). -/
structure SuccessResponse where
  subtype : String
  id : String
  response : Option (List (String × Json))
deriving DecidableEq

/-- ErrorResponse struct: `subtype`, `request_id`, `error` string. -/
structure ErrorResponse where
  subtype : String
  id : String
  error : String
deriving DecidableEq

/-- The closed set of control response variants behind the Go
`ControlResponse` interface. -/
inductive ControlResponse where
  | ofSuccess (r : SuccessResponse) : ControlResponse
  | ofError (r : ErrorResponse) : ControlResponse
deriving DecidableEq

/-- NewSuccessResponse (`control.go`). -/
def NewSuccessResponse (requestID : String)
    (response : Option (List (String × Json))) : ControlResponse :=
  .ofSuccess ⟨ControlResponseTypeSuccess, requestID, response⟩

/-- NewErrorResponse (`control.go`). -/
def NewErrorResponse (requestID errorMsg : String) : ControlResponse :=
  .ofError ⟨ControlResponseTypeError, requestID, errorMsg⟩

/-- Serialisation of a response struct as `encoding/json` emits it:
declaration order, payload mapping omitted when nil or empty
(`omitempty` on a map). -/
def encodeControlResponseBody : ControlResponse → Json
  | .ofSuccess r =>
    .obj ([("subtype", .str r.subtype), ("request_id", .str r.id)] ++
      encOmitMap "response" r.response)
  | .ofError r =>
    .obj [("subtype", .str r.subtype), ("request_id", .str r.id),
          ("error", .str r.error)]

/-- MarshalControlResponse (`control.go`): wrap the response in an
`SDKControlResponse` envelope with `type: control_response`.  The Go
`default` branch is unreachable in the closed sum. -/
def MarshalControlResponse (resp : ControlResponse) : Except GoError Json :=
  .ok (.obj [("type", .str ControlTypeResponse),
             ("response", encodeControlResponseBody resp)])

/-- PermissionMode constants (`options.go`). -/
def PermissionModeDefault : String := "default"

def PermissionModeAcceptEdits : String := "acceptEdits"

def PermissionModePlan : String := "plan"

def PermissionModeBypassPermission : String := "bypassPermissions"

/-- The fields of the `ClaudeAgentOptions` snapshot that `Validate`
reads.  The snapshot's remaining options (tool lists, prompts, env,
callbacks, hooks, agents, MCP configuration, buffer size, ...) are never
inspected by `Validate` and are not part of this projection. -/
structure ClaudeAgentOptions where
  resume : Option String
  continueConversation : Bool
  cwd : Option String
  cliPath : Option String
  permissionMode : Option String
deriving DecidableEq

/-- Permission-mode step of `Validate`. -/
def validatePermissionMode (o : ClaudeAgentOptions) : Option String :=
  match o.permissionMode with
  | none => none
  | some m =>
    if m = PermissionModeDefault || m = PermissionModeAcceptEdits ||
        m = PermissionModePlan || m = PermissionModeBypassPermission then none
    else some ("invalid permission mode: " ++ m)

/-- CLI-path step of `Validate`.  `statExists p = false` models
`os.IsNotExist(err)` holding for the error of `os.Stat(p)`. -/
def validateCLIPath (statExists : String → Bool) (o : ClaudeAgentOptions) :
    Option String :=
  match o.cliPath with
  | none => validatePermissionMode o
  | some c =>
    if !statExists c then some ("CLI path does not exist: " ++ c)
    else validatePermissionMode o

/-- Working-directory step of `Validate`. -/
def validateCWD (statExists : String → Bool) (o : ClaudeAgentOptions) :
    Option String :=
  match o.cwd with
  | none => validateCLIPath statExists o
  | some c =>
    if !statExists c then some ("working directory does not exist: " ++ c)
    else validateCLIPath statExists o

/-- Validate (`options.go`): mutual exclusion of `resume` and
`continue_conversation`, existence of `cwd` and `cli_path`, membership of
`permission_mode` in the four modes.  `some msg` models a returned
`error`, `none` a nil return. -/
def Validate (statExists : String → Bool) (o : ClaudeAgentOptions) :
    Option String :=
  if o.resume.isSome && o.continueConversation then
    some "cannot use both resume and continue_conversation options"
  else validateCWD statExists o

/-- Whitespace recognised by `strings.TrimSpace` (its ASCII portion; the
framer inputs in scope are ASCII). -/
def isSpaceChar (c : Char) : Bool :=
  c = ' ' || c = '\t' || c = '\n' || c = '\r' || c = '\x0b' || c = '\x0c'

/-- Whitespace recognised by the JSON grammar of `encoding/json`. -/
def isJsonWS (c : Char) : Bool :=
  c = ' ' || c = '\t' || c = '\n' || c = '\r'

/-- Leading JSON whitespace skip. -/
def skipJsonWS (cs : List Char) : List Char := cs.dropWhile isJsonWS

/-- strings.TrimSpace on a character list. -/
def trimChars (cs : List Char) : List Char :=
  ((cs.dropWhile isSpaceChar).reverse.dropWhile isSpaceChar).reverse

/-- strings.Split on a single newline separator. -/
def splitNl : List Char → List (List Char)
  | [] => [[]]
  | c :: cs =>
    if c = '\n' then [] :: splitNl cs
    else
      match splitNl cs with
      | [] => [[c]]
      | l :: ls => (c :: l) :: ls

/-- Digit accumulation for the number production. -/
def takeDigits : List Char → Nat → Nat × List Char
  | [], acc => (acc, [])
  | c :: cs, acc =>
    if c.isDigit then takeDigits cs (acc * 10 + (c.toNat - '0'.toNat))
    else (acc, c :: cs)

/-- Integer literal (at least one digit). -/
def parseDigits : List Char → Option (Nat × List Char)
  | [] => none
  | c :: cs =>
    if c.isDigit then some (takeDigits cs (c.toNat - '0'.toNat))
    else none

/-- String body after the opening quote, accumulating into `acc`.  The
escapes in scope are quote, backslash, slash, `n`, `t`, `r`; the claims'
inputs use no others (`\b`, `\f`, `\uXXXX` and fractional numbers are
outside the modelled subset of the `encoding/json` grammar). -/
def parseStringAux : List Char → List Char → Option (List Char × List Char)
  | [], _ => none
  | '"' :: rest, acc => some (acc.reverse, rest)
  | '\\' :: e :: rest, acc =>
    if e = '"' then parseStringAux rest ('"' :: acc)
    else if e = '\\' then parseStringAux rest ('\\' :: acc)
    else if e = '/' then parseStringAux rest ('/' :: acc)
    else if e = 'n' then parseStringAux rest ('\n' :: acc)
    else if e = 't' then parseStringAux rest ('\t' :: acc)
    else if e = 'r' then parseStringAux rest ('\r' :: acc)
    else none
  | ['\\'], _ => none
  | c :: rest, acc => parseStringAux rest (c :: acc)

mutual

/-- One JSON value, fuelled recursive descent. -/
def parseVal : Nat → List Char → Option (Json × List Char)
  | 0, _ => none
  | Nat.succ fuel, cs =>
    match skipJsonWS cs with
    | '{' :: rest => parseObjBody fuel rest
    | '[' :: rest => parseArrBody fuel rest
    | '"' :: rest =>
      match parseStringAux rest [] with
      | none => none
      | some (s, r) => some (.str (String.mk s), r)
    | 't' :: 'r' :: 'u' :: 'e' :: rest => some (.bool true, rest)
    | 'f' :: 'a' :: 'l' :: 's' :: 'e' :: rest => some (.bool false, rest)
    | 'n' :: 'u' :: 'l' :: 'l' :: rest => some (.null, rest)
    | '-' :: rest =>
      match parseDigits rest with
      | none => none
      | some (n, r) => some (.num (-(n : Int)), r)
    | c :: rest =>
      if c.isDigit then
        match parseDigits (c :: rest) with
        | none => none
        | some (n, r) => some (.num (n : Int), r)
      else none
    | [] => none

/-- Object body after the opening brace. -/
def parseObjBody : Nat → List Char → Option (Json × List Char)
  | 0, _ => none
  | Nat.succ fuel, cs =>
    match skipJsonWS cs with
    | '}' :: rest => some (.obj [], rest)
    | rest =>
      match parseMembers fuel rest with
      | none => none
      | some (fs, r) => some (.obj fs, r)

/-- One or more `key: value` members followed by the closing brace. -/
def parseMembers : Nat → List Char → Option (List (String × Json) × List Char)
  | 0, _ => none
  | Nat.succ fuel, cs =>
    match skipJsonWS cs with
    | '"' :: rest =>
      match parseStringAux rest [] with
      | none => none
      | some (k, r1) =>
        match skipJsonWS r1 with
        | ':' :: r2 =>
          match parseVal fuel r2 with
          | none => none
          | some (v, r3) =>
            match skipJsonWS r3 with
            | ',' :: r4 =>
              match parseMembers fuel r4 with
              | none => none
              | some (fs, r5) => some ((String.mk k, v) :: fs, r5)
            | '}' :: r4 => some ([(String.mk k, v)], r4)
            | _ => none
        | _ => none
    | _ => none

/-- Array body after the opening bracket. -/
def parseArrBody : Nat → List Char → Option (Json × List Char)
  | 0, _ => none
  | Nat.succ fuel, cs =>
    match skipJsonWS cs with
    | ']' :: rest => some (.arr [], rest)
    | rest =>
      match parseElems fuel rest with
      | none => none
      | some (xs, r) => some (.arr xs, r)

/-- One or more array elements followed by the closing bracket. -/
def parseElems : Nat → List Char → Option (List Json × List Char)
  | 0, _ => none
  | Nat.succ fuel, cs =>
    match parseVal fuel cs with
    | none => none
    | some (v, r1) =>
      match skipJsonWS r1 with
      | ',' :: r2 =>
        match parseElems fuel r2 with
        | none => none
        | some (xs, r3) => some (v :: xs, r3)
      | ']' :: r2 => some ([v], r2)
      | _ => none

end

/-- Parse of a complete document: one value, then only trailing
whitespace, as `json.Unmarshal` requires.  The fuel is generous; every
concrete run in this file stays far below it. -/
def parseJsonTop (cs : List Char) : Option Json :=
  match parseVal (2 * cs.length + 8) cs with
  | some (j, rest) => if skipJsonWS rest = [] then some j else none
  | none => none

/-- The framer's parse attempt, `json.Unmarshal(buffer, &data)` with
`data : map[string]interface\x7b\x7d`: the document must be a complete
JSON object (or `null`, which leaves the nil map); anything else is an
unmarshal error, which the framer treats as a partial prefix. -/
def parseMapTop (cs : List Char) : Option Json :=
  match parseJsonTop cs with
  | some (.obj fs) => some (.obj fs)
  | some .null => some .null
  | _ => none

/-- State threaded through `messageReaderLoop` (`transport.go`): the
partial-JSON accumulator plus, in emission order, the messages published
to the message channel and the errors offered to `OnError`. -/
structure FramerState where
  jsonBuffer : List Char
  messages : List Message
  errors : List GoError
deriving DecidableEq

/-- The json-decode error built when the accumulator exceeds the limit,
text exactly as in `messageReaderLoop`. -/
def oversizeErr (maxBuf bufLen : Nat) : GoError :=
  .wrap .jsonDecode
    ("JSON message exceeded maximum buffer size of " ++ toString maxBuf ++ " bytes")
    (.plain ("buffer size " ++ toString bufLen ++ " exceeds limit " ++
      toString maxBuf))

/-- Processing of one non-empty trimmed fragment by the loop body:
append to the accumulator, fail and reset when over the limit, otherwise
try to parse; on a complete object hand it to `parseMessage` (which
re-serialises the map and calls `UnmarshalMessage`, the identity at tree
level) and reset; on a partial prefix keep accumulating. -/
def procFragment (maxBuf : Nat) (st : FramerState) (frag : List Char) :
    FramerState :=
  let buf := st.jsonBuffer ++ frag
  if buf.length > maxBuf then
    { st with jsonBuffer := [],
              errors := st.errors ++ [oversizeErr maxBuf buf.length] }
  else
    match parseMapTop buf with
    | some j =>
      match UnmarshalMessage j with
      | .ok m => { st with jsonBuffer := [], messages := st.messages ++ [m] }
      | .error e => { st with jsonBuffer := [], errors := st.errors ++ [e] }
    | none => { st with jsonBuffer := buf }

/-- Processing of one scanner line: skip lines that are empty after
trimming, otherwise split on embedded newlines and feed each non-empty
trimmed fragment to the accumulator. -/
def procLine (maxBuf : Nat) (st : FramerState) (line : List Char) :
    FramerState :=
  if trimChars line = [] then st
  else
    (splitNl line).foldl
      (fun s frag =>
        let f := trimChars frag
        if f = [] then s else procFragment maxBuf s f) st

/-- The framer loop over a finite stream of scanner lines (each line is
the text of one `\n`-terminated chunk, terminator stripped by the
scanner), started with an empty accumulator. -/
def runFramer (maxBuf : Nat) (lines : List (List Char)) : FramerState :=
  lines.foldl (procLine maxBuf) ⟨[], [], []⟩

/-- The slice of transport state that `Write` (`transport.go`) reads and
writes: the ready bit, presence of the buffered stdin writer, the
observed `cmd.ProcessState` exit, and the recorded `exitError`. -/
structure TransportWriteState where
  ready : Bool
  hasWriter : Bool
  processExited : Bool
  exitCode : Int
  exitError : Option GoError
deriving DecidableEq

/-- The process error recorded by `messageReaderLoop` when the child
exits with a non-zero code. -/
def processExitErr (code : Int) : GoError :=
  .wrap .process ("Claude Code process exited with code " ++ toString code)
    (.plain ("exit code " ++ toString code))

/-- The tail of `messageReaderLoop`: after stdout closes the loop waits
for the child and, on a non-zero exit code, records the process error as
the transport's `exitError` (it does not clear the ready bit). -/
def readerLoopExit (st : TransportWriteState) (code : Int) :
    TransportWriteState :=
  if code ≠ 0 then { st with exitError := some (processExitErr code) } else st

/-- Write (`transport.go`): reject when not ready / writer gone, when the
child is observed exited, or when an exit error is recorded; otherwise
attempt the stdin write and flush, whose success is the environment's
choice (`writeOk`, `flushOk`); a failed write or flush clears the ready
bit and records the connection error as `exitError`.  The underlying I/O
errors are opaque stdlib values. -/
def Write (st : TransportWriteState) (writeOk flushOk : Bool) :
    Except GoError Unit × TransportWriteState :=
  if !st.ready || !st.hasWriter then
    (.error (.mk .cliConnection "transport is not ready for writing"), st)
  else if st.processExited then
    (.error (.mk .cliConnection
      ("cannot write to terminated process (exit code: " ++
        toString st.exitCode ++ ")")), st)
  else
    match st.exitError with
    | some ex =>
      (.error (.wrap .cliConnection
        ("cannot write to process that exited with error: " ++ ex.render) ex), st)
    | none =>
      if !writeOk then
        let e := GoError.wrap .cliConnection "failed to write to stdin"
          (.plain "write error")
        (.error e, { st with ready := false, exitError := some e })
      else if !flushOk then
        let e := GoError.wrap .cliConnection "failed to flush stdin"
          (.plain "flush error")
        (.error e, { st with ready := false, exitError := some e })
      else (.ok (), st)

/-- Iterated writes with an environment-chosen success oracle per call. -/
def writeSeq (st : TransportWriteState) :
    List (Bool × Bool) → List (Except GoError Unit) × TransportWriteState
  | [] => ([], st)
  | io :: ios =>
    let r := Write st io.1 io.2
    let rest := writeSeq r.2 ios
    (r.1 :: rest.1, rest.2)

/-- A transport state in which `Write` can no longer succeed. -/
def Poisoned (st : TransportWriteState) : Bool :=
  !st.ready || !st.hasWriter || st.processExited || st.exitError.isSome

instance {ε α : Type} [DecidableEq ε] [DecidableEq α] :
    DecidableEq (Except ε α) := fun a b =>
  match a, b with
  | .ok x, .ok y => decidable_of_iff (x = y) (by simp)
  | .error x, .error y => decidable_of_iff (x = y) (by simp)
  | .ok _, .error _ => isFalse (fun h => by cases h)
  | .error _, .ok _ => isFalse (fun h => by cases h)

/-- Content blocks on which the byte-level round trip is exact.  A
`tool_result` whose non-nil `content` interface marshals to JSON null
(e.g. a typed nil pointer stored in the interface, `some Json.null`
here) is a real Go value, but it encodes as `content:null`, which
decoding collapses back into the nil interface (`none`); the round trip
is not the identity on such values, so they are excluded. -/
def wfBlock : ContentBlock → Bool
  | .toolResult r =>
    match r.content with
    | some .null => false
    | _ => true
  | _ => true

/-- A user `content` value that is the image of a Go value reachable
through the codec: a decoded array is always converted to blocks and a
decoded string is always classified, so the preserved-raw case never
holds a string or an array. -/
def wfUserContent : UserContent → Bool
  | .str _ => true
  | .blocks bs => bs.all wfBlock
  | .other j =>
    match j with
    | .str _ => false
    | .arr _ => false
    | _ => true

/-- Messages on which the byte-level round trip is exact: their blocks
are well-formed, and `usage` is not the non-nil empty map.  That map is
a real Go value — decoding `usage: \x7b\x7d` produces it — but
`omitempty` on a map omits it when its length is zero, so it comes back
as the nil map and the round trip is not the identity on it. -/
def wfMessage : Message → Bool
  | .user u => wfUserContent u.content
  | .assistant a => a.content.all wfBlock
  | .result r =>
    match r.usage with
    | some [] => false
    | _ => true
  | _ => true

/-- Equality of two content blocks on all defined (non-discriminator)
fields: same variant and same payload outside the `Type_` tag. -/
def blockEqDefined : ContentBlock → ContentBlock → Bool
  | .text a, .text b => a.text == b.text
  | .thinking a, .thinking b =>
    a.thinking == b.thinking && a.signature == b.signature
  | .toolUse a, .toolUse b =>
    a.id == b.id && a.name == b.name && a.input == b.input
  | .toolResult a, .toolResult b =>
    a.toolUseID == b.toolUseID && a.content == b.content &&
      a.isError == b.isError
  | _, _ => false

/-- Pointwise `blockEqDefined` on block sequences. -/
def blocksEqDefined : List ContentBlock → List ContentBlock → Bool
  | [], [] => true
  | a :: as, b :: bs => blockEqDefined a b && blocksEqDefined as bs
  | _, _ => false

/-- Equality of two user contents on all defined fields. -/
def userContentEqDefined : UserContent → UserContent → Bool
  | .str a, .str b => a == b
  | .blocks as, .blocks bs => blocksEqDefined as bs
  | .other a, .other b => a == b
  | _, _ => false

/-- Equality of two messages on all defined (non-discriminator) fields:
same variant, same payload outside every `Type_` tag (the tags of
contained blocks included). -/
def msgEqDefined : Message → Message → Bool
  | .user a, .user b =>
    userContentEqDefined a.content b.content &&
      a.parentToolUseID == b.parentToolUseID
  | .assistant a, .assistant b =>
    blocksEqDefined a.content b.content && a.model == b.model &&
      a.parentToolUseID == b.parentToolUseID
  | .system a, .system b => a.subtype == b.subtype && a.data == b.data
  | .result a, .result b =>
    a.subtype == b.subtype && a.durationMS == b.durationMS &&
      a.durationAPIMS == b.durationAPIMS && a.isError == b.isError &&
      a.numTurns == b.numTurns && a.sessionID == b.sessionID &&
      a.totalCostUSD == b.totalCostUSD && a.usage == b.usage &&
      a.result == b.result
  | .streamEvent a, .streamEvent b =>
    a.uuid == b.uuid && a.sessionID == b.sessionID && a.event == b.event &&
      a.parentToolUseID == b.parentToolUseID
  | _, _ => false

/-- Top-level `type` field of an encoded document. -/
def jsonTypeField (j : Json) : Option Json :=
  match j with
  | .obj fs => getField fs "type"
  | _ => none

/-- Whether a write result is a cli-connection error. -/
def isConnError : Except GoError Unit → Bool
  | .error e => e.kind == some .cliConnection
  | .ok _ => false

theorem blockRoundTrip (b : ContentBlock) (hb : wfBlock b = true) :
    UnmarshalContentBlock (MarshalContentBlock b).2 = .ok (MarshalContentBlock b).1 := by
  cases b with
  | text t => rfl
  | thinking t => rfl
  | toolUse t =>
    obtain ⟨ty, i, n, inp⟩ := t
    cases inp <;> rfl
  | toolResult t =>
    obtain ⟨ty, u, c, e⟩ := t
    cases c with
    | none => cases e <;> rfl
    | some cj => cases cj <;> cases e <;> first | rfl | simp [wfBlock] at hb

theorem marshalContentBlocks_cons (b : ContentBlock) (rest : List ContentBlock) :
    marshalContentBlocks (b :: rest) =
      ((MarshalContentBlock b).1 :: (marshalContentBlocks rest).1,
       (MarshalContentBlock b).2 :: (marshalContentBlocks rest).2) := by
  cases h1 : MarshalContentBlock b with
  | mk b' j =>
    cases h2 : marshalContentBlocks rest with
    | mk rest' js => simp [marshalContentBlocks, h1, h2]

theorem blocksRoundTrip (bs : List ContentBlock) (h : bs.all wfBlock = true) :
    decodeBlocks (marshalContentBlocks bs).2 = .ok (marshalContentBlocks bs).1 := by
  induction bs with
  | nil => rfl
  | cons b rest ih =>
    simp only [List.all_cons, Bool.and_eq_true] at h
    rw [marshalContentBlocks_cons]
    simp only [decodeBlocks]
    rw [blockRoundTrip b h.1, ih h.2]
    rfl

theorem marshalUserMessage_blocks (t : String) (p : Option String)
    (bs : List ContentBlock) :
    marshalUserMessage ⟨t, .blocks bs, p⟩ =
      (⟨MessageTypeUser, .blocks (marshalContentBlocks bs).1, p⟩,
        .obj ([("type", .str MessageTypeUser),
               ("content", .arr (marshalContentBlocks bs).2)] ++
          encOptStr "parent_tool_use_id" p)) := by
  cases h : marshalContentBlocks bs with
  | mk bs' js => simp [marshalUserMessage, h, MessageTypeUser]

theorem unmarshalUser_blocks_aux (p : Option String) (js : List Json)
    (bs' : List ContentBlock) (hd : decodeBlocks js = .ok bs') :
    UnmarshalMessage (.obj ([("type", .str MessageTypeUser),
        ("content", .arr js)] ++ encOptStr "parent_tool_use_id" p)) =
      .ok (.user ⟨MessageTypeUser, .blocks bs', p⟩) := by
  cases p with
  | none =>
    have e1 : UnmarshalMessage (.obj ([("type", .str MessageTypeUser),
        ("content", .arr js)] ++ encOptStr "parent_tool_use_id" none)) =
        ((decodeBlocks js).map UserContent.blocks).map
          (fun c => Message.user ⟨MessageTypeUser, c, none⟩) := rfl
    rw [e1, hd]
    rfl
  | some ps =>
    have e1 : UnmarshalMessage (.obj ([("type", .str MessageTypeUser),
        ("content", .arr js)] ++ encOptStr "parent_tool_use_id" (some ps))) =
        ((decodeBlocks js).map UserContent.blocks).map
          (fun c => Message.user ⟨MessageTypeUser, c, some ps⟩) := rfl
    rw [e1, hd]
    rfl

theorem marshalAssistantMessage_eq (t mdl : String) (p : Option String)
    (bs : List ContentBlock) :
    marshalAssistantMessage ⟨t, bs, mdl, p⟩ =
      (⟨MessageTypeAssistant, (marshalContentBlocks bs).1, mdl, p⟩,
        .obj ([("type", .str MessageTypeAssistant),
               ("content", .arr (marshalContentBlocks bs).2),
               ("model", .str mdl)] ++
          encOptStr "parent_tool_use_id" p)) := by
  cases h : marshalContentBlocks bs with
  | mk bs' js => simp [marshalAssistantMessage, h, MessageTypeAssistant]

theorem unmarshalAssistant_aux (mdl : String) (p : Option String)
    (js : List Json) (bs' : List ContentBlock)
    (hd : decodeBlocks js = .ok bs') :
    UnmarshalMessage (.obj ([("type", .str MessageTypeAssistant),
        ("content", .arr js), ("model", .str mdl)] ++
        encOptStr "parent_tool_use_id" p)) =
      .ok (.assistant ⟨MessageTypeAssistant, bs', mdl, p⟩) := by
  cases p with
  | none =>
    have e1 : UnmarshalMessage (.obj ([("type", .str MessageTypeAssistant),
        ("content", .arr js), ("model", .str mdl)] ++
        encOptStr "parent_tool_use_id" none)) =
        (decodeBlocks js).map
          (fun bs => Message.assistant ⟨MessageTypeAssistant, bs, mdl, none⟩) := rfl
    rw [e1, hd]
    rfl
  | some ps =>
    have e1 : UnmarshalMessage (.obj ([("type", .str MessageTypeAssistant),
        ("content", .arr js), ("model", .str mdl)] ++
        encOptStr "parent_tool_use_id" (some ps))) =
        (decodeBlocks js).map
          (fun bs => Message.assistant ⟨MessageTypeAssistant, bs, mdl, some ps⟩) := rfl
    rw [e1, hd]
    rfl

theorem msgRoundTrip (m : Message) (h : wfMessage m = true) :
    UnmarshalMessage (MarshalMessage m).2 = .ok (MarshalMessage m).1 := by
  cases m with
  | user u =>
    obtain ⟨t, c, p⟩ := u
    cases c with
    | str s => cases p <;> rfl
    | other j =>
      cases j <;> cases p <;>
        first
          | rfl
          | simp [wfMessage, wfUserContent] at h
    | blocks bs =>
      have hw : bs.all wfBlock = true := by simpa [wfMessage, wfUserContent] using h
      have hm : MarshalMessage (.user ⟨t, .blocks bs, p⟩) =
          (.user ⟨MessageTypeUser, .blocks (marshalContentBlocks bs).1, p⟩,
            .obj ([("type", .str MessageTypeUser),
                   ("content", .arr (marshalContentBlocks bs).2)] ++
              encOptStr "parent_tool_use_id" p)) := by
        simp [MarshalMessage, marshalUserMessage_blocks]
      rw [hm]
      exact unmarshalUser_blocks_aux p _ _ (blocksRoundTrip bs hw)
  | assistant a =>
    obtain ⟨t, bs, mdl, p⟩ := a
    have hw : bs.all wfBlock = true := by simpa [wfMessage] using h
    have hm : MarshalMessage (.assistant ⟨t, bs, mdl, p⟩) =
        (.assistant ⟨MessageTypeAssistant, (marshalContentBlocks bs).1, mdl, p⟩,
          .obj ([("type", .str MessageTypeAssistant),
                 ("content", .arr (marshalContentBlocks bs).2),
                 ("model", .str mdl)] ++
            encOptStr "parent_tool_use_id" p)) := by
      simp [MarshalMessage, marshalAssistantMessage_eq]
    rw [hm]
    exact unmarshalAssistant_aux mdl p _ _ (blocksRoundTrip bs hw)
  | system s =>
    obtain ⟨t, st, d⟩ := s
    cases d <;> rfl
  | result r =>
    obtain ⟨t, st, dm, da, ie, nt, sid, tc, us, re⟩ := r
    cases tc <;> cases re <;>
      (cases us with
       | none => rfl
       | some l => cases l with
         | nil => simp [wfMessage] at h
         | cons x xs => rfl)
  | streamEvent e =>
    obtain ⟨t, u, sid, ev, p⟩ := e
    cases ev <;> cases p <;> rfl

theorem blockEqDefined_marshal (b : ContentBlock) :
    blockEqDefined b (MarshalContentBlock b).1 = true := by
  cases b <;> simp [MarshalContentBlock, blockEqDefined]

theorem blocksEqDefined_marshal (bs : List ContentBlock) :
    blocksEqDefined bs (marshalContentBlocks bs).1 = true := by
  induction bs with
  | nil => rfl
  | cons b rest ih =>
    rw [marshalContentBlocks_cons]
    simp [blocksEqDefined, blockEqDefined_marshal, ih]

theorem msgEqDefined_marshal (m : Message) :
    msgEqDefined m (MarshalMessage m).1 = true := by
  cases m with
  | user u =>
    obtain ⟨t, c, p⟩ := u
    cases c with
    | str s => simp [MarshalMessage, marshalUserMessage, msgEqDefined, userContentEqDefined]
    | other j => simp [MarshalMessage, marshalUserMessage, msgEqDefined, userContentEqDefined]
    | blocks bs =>
      rw [show MarshalMessage (.user ⟨t, .blocks bs, p⟩) =
          (.user ⟨MessageTypeUser, .blocks (marshalContentBlocks bs).1, p⟩,
            .obj ([("type", .str MessageTypeUser),
                   ("content", .arr (marshalContentBlocks bs).2)] ++
              encOptStr "parent_tool_use_id" p)) from by
        simp [MarshalMessage, marshalUserMessage_blocks]]
      simp [msgEqDefined, userContentEqDefined, blocksEqDefined_marshal]
  | assistant a =>
    obtain ⟨t, bs, mdl, p⟩ := a
    rw [show MarshalMessage (.assistant ⟨t, bs, mdl, p⟩) =
        (.assistant ⟨MessageTypeAssistant, (marshalContentBlocks bs).1, mdl, p⟩,
          .obj ([("type", .str MessageTypeAssistant),
                 ("content", .arr (marshalContentBlocks bs).2),
                 ("model", .str mdl)] ++
            encOptStr "parent_tool_use_id" p)) from by
      simp [MarshalMessage, marshalAssistantMessage_eq]]
    simp [msgEqDefined, blocksEqDefined_marshal]
  | system s => simp [MarshalMessage, msgEqDefined]
  | result r => simp [MarshalMessage, msgEqDefined]
  | streamEvent e => simp [MarshalMessage, msgEqDefined]

theorem marshalBlock_typeField (b : ContentBlock) :
    jsonTypeField (MarshalContentBlock b).2 = some (.str b.tag) := by
  cases b <;> rfl

theorem marshalMessage_typeField (m : Message) :
    jsonTypeField (MarshalMessage m).2 = some (.str m.tag) := by
  cases m with
  | user u =>
    obtain ⟨t, c, p⟩ := u
    cases c with
    | str s => rfl
    | other j => rfl
    | blocks bs =>
      rw [show MarshalMessage (.user ⟨t, .blocks bs, p⟩) =
          (.user ⟨MessageTypeUser, .blocks (marshalContentBlocks bs).1, p⟩,
            .obj ([("type", .str MessageTypeUser),
                   ("content", .arr (marshalContentBlocks bs).2)] ++
              encOptStr "parent_tool_use_id" p)) from by
        simp [MarshalMessage, marshalUserMessage_blocks]]
      rfl
  | assistant a =>
    obtain ⟨t, bs, mdl, p⟩ := a
    rw [show MarshalMessage (.assistant ⟨t, bs, mdl, p⟩) =
        (.assistant ⟨MessageTypeAssistant, (marshalContentBlocks bs).1, mdl, p⟩,
          .obj ([("type", .str MessageTypeAssistant),
                 ("content", .arr (marshalContentBlocks bs).2),
                 ("model", .str mdl)] ++
            encOptStr "parent_tool_use_id" p)) from by
      simp [MarshalMessage, marshalAssistantMessage_eq]]
    rfl
  | system s => rfl
  | result r => rfl
  | streamEvent e => rfl

/-- Whether an `Except` result is a success. -/
def isOkB {α : Type} : Except GoError α → Bool
  | .ok _ => true
  | .error _ => false

/-- A control-request envelope document with the outer `type` either
absent (`none`) or an arbitrary string. -/
def controlEnvelope (ot : Option String) (rid : String) (req : Json) : Json :=
  .obj ((match ot with
         | some t => [("type", .str t)]
         | none => []) ++
    [("request_id", .str rid), ("request", req)])

/-- Whether the per-subtype variant decode of `UnmarshalControlRequest`
succeeds on the nested request document. -/
def decodeVariantOk (s : String) (req : Json) : Bool :=
  if s = SubtypeInterrupt then isOkB (decodeInterruptRequest req)
  else if s = SubtypeCanUseTool then isOkB (decodePermissionRequest req)
  else if s = SubtypeInitialize then isOkB (decodeInitializeRequest req)
  else if s = SubtypeSetPermissionMode then
    isOkB (decodeSetPermissionModeRequest req)
  else if s = SubtypeHookCallback then isOkB (decodeHookCallbackRequest req)
  else if s = SubtypeMCPMessage then isOkB (decodeMCPMessageRequest req)
  else false

/-- The `Type_` field stored in a content block value. -/
def ContentBlock.storedType : ContentBlock → String
  | .text t => t.type_
  | .thinking t => t.type_
  | .toolUse t => t.type_
  | .toolResult t => t.type_

/-- The `Type_` field stored in a message value. -/
def Message.storedType : Message → String
  | .user m => m.type_
  | .assistant m => m.type_
  | .system m => m.type_
  | .result m => m.type_
  | .streamEvent m => m.type_

/-- Whether a block's stored discriminator equals its canonical tag. -/
def blockTagCanon (b : ContentBlock) : Bool := b.storedType == b.tag

/-- Whether every content block reachable through a message's `content`
has a canonical stored discriminator. -/
def msgBlocksCanon : Message → Bool
  | .user u =>
    match u.content with
    | .blocks bs => bs.all blockTagCanon
    | _ => true
  | .assistant a => a.content.all blockTagCanon
  | _ => true

theorem splitNl_no_newline (cs : List Char) (h : ('\n') ∉ cs) :
    splitNl cs = [cs] := by
  induction cs with
  | nil => rfl
  | cons c cs ih =>
    simp only [List.mem_cons, not_or] at h
    simp only [splitNl]
    rw [if_neg (fun hh => h.1 hh.symm), ih h.2]

def ShiftStep {α : Type} (g : FramerState → α → FramerState) : Prop :=
  ∀ b ms es a, g ⟨b, ms, es⟩ a =
    ⟨(g ⟨b, [], []⟩ a).jsonBuffer,
     ms ++ (g ⟨b, [], []⟩ a).messages,
     es ++ (g ⟨b, [], []⟩ a).errors⟩

theorem procFragment_shift (maxBuf : Nat) : ShiftStep (procFragment maxBuf) := by
  intro b ms es frag
  simp only [procFragment]
  split
  · simp
  · split
    · split <;> simp
    · simp

theorem foldl_shift {α : Type} (g : FramerState → α → FramerState)
    (hg : ShiftStep g) (ls : List α) :
    ∀ b ms es, ls.foldl g ⟨b, ms, es⟩ =
      ⟨(ls.foldl g ⟨b, [], []⟩).jsonBuffer,
       ms ++ (ls.foldl g ⟨b, [], []⟩).messages,
       es ++ (ls.foldl g ⟨b, [], []⟩).errors⟩ := by
  induction ls with
  | nil => intro b ms es; simp
  | cons a ls ih =>
    intro b ms es
    simp only [List.foldl_cons]
    rw [hg b ms es a]
    rcases hga : g ⟨b, [], []⟩ a with ⟨b1, m1, e1⟩
    dsimp only
    rw [ih b1 (ms ++ m1) (es ++ e1), ih b1 m1 e1]
    simp [List.append_assoc]

theorem procLine_shift (maxBuf : Nat) : ShiftStep (procLine maxBuf) := by
  intro b ms es line
  simp only [procLine]
  by_cases h : trimChars line = []
  · simp [h]
  · simp only [h, if_false]
    exact foldl_shift _
      (by
        intro b' ms' es' a
        by_cases hf : trimChars a = []
        · simp [hf]
        · simp only [hf, if_false]
          exact procFragment_shift maxBuf b' ms' es' (trimChars a))
      (splitNl line) b ms es

theorem framerChunkInduction (maxBuf : Nat) (s : List Char) (j : Json)
    (m : Message)
    (hlen : s.length ≤ maxBuf)
    (hpre : ∀ i, i < s.length → parseMapTop (List.take i s) = none)
    (hparse : parseMapTop s = some j)
    (hmsg : UnmarshalMessage j = .ok m) :
    ∀ (chunks : List (List Char)) (p : List Char), chunks ≠ [] →
      (∀ c ∈ chunks, c ≠ [] ∧ ('\n') ∉ c ∧ trimChars c = c) →
      p ++ chunks.flatten = s →
      chunks.foldl (procLine maxBuf) ⟨p, [], []⟩ = ⟨[], [m], []⟩ := by
  intro chunks
  induction chunks with
  | nil => intro p hne _ _; exact absurd rfl hne
  | cons c cs ih =>
    intro p _ hgood hjoin
    obtain ⟨hc_ne, hc_nl, hc_tr⟩ := hgood c (List.mem_cons_self _ _)
    have hstep : procLine maxBuf ⟨p, [], []⟩ c = procFragment maxBuf ⟨p, [], []⟩ c := by
      simp only [procLine]
      rw [hc_tr, if_neg hc_ne, splitNl_no_newline c hc_nl]
      simp only [List.foldl_cons, List.foldl_nil]
      rw [hc_tr, if_neg hc_ne]
    cases cs with
    | nil =>
      have hps : p ++ c = s := by simpa using hjoin
      simp only [List.foldl_cons, List.foldl_nil]
      rw [hstep]
      simp only [procFragment]
      rw [hps]
      rw [if_neg (by omega : ¬ s.length > maxBuf)]
      simp [hparse, hmsg]
    | cons c2 cs2 =>
      have hj2 : (p ++ c) ++ (c2 :: cs2).flatten = s := by
        rw [← hjoin]; simp [List.flatten_cons, List.append_assoc]
      have hc2ne : c2 ≠ [] := (hgood c2 (by simp)).1
      have hjoin_pos : 0 < (c2 :: cs2).flatten.length := by
        simp only [List.flatten_cons, List.length_append]
        cases c2 with
        | nil => exact absurd rfl hc2ne
        | cons x xs => simp
      have hlen2 := congrArg List.length hj2
      simp only [List.length_append] at hlen2
      have hproper : (p ++ c).length < s.length := by
        simp only [List.length_append]
        omega
      have htake : s.take (p ++ c).length = p ++ c := by
        rw [← hj2]; exact List.take_left _ _
      have hfrag : procFragment maxBuf ⟨p, [], []⟩ c = ⟨p ++ c, [], []⟩ := by
        simp only [procFragment]
        rw [if_neg (by
          simp only [List.length_append]
          omega : ¬ (p ++ c).length > maxBuf)]
        rw [show parseMapTop (p ++ c) = none from by
          rw [← htake]; exact hpre _ hproper]
      simp only [List.foldl_cons]
      rw [hstep, hfrag]
      have := ih (p ++ c) (by simp) (fun x hx => hgood x (List.mem_cons_of_mem _ hx))
        (by rw [← hjoin]; simp [List.flatten_cons, List.append_assoc])
      simpa only [List.foldl_cons] using this

theorem unmarshalControl_unknown (j : Json) (w : SDKControlRequest) (s : String)
    (hw : decodeSDKControlRequest j = .ok w)
    (hs : extractSubtype w.request = .ok s)
    (h1 : s ≠ SubtypeInterrupt) (h2 : s ≠ SubtypeCanUseTool)
    (h3 : s ≠ SubtypeInitialize) (h4 : s ≠ SubtypeSetPermissionMode)
    (h5 : s ≠ SubtypeHookCallback) (h6 : s ≠ SubtypeMCPMessage) :
    UnmarshalControlRequest j =
      .error (.mk .messageParse ("unknown control request subtype: " ++ s)) := by
  simp only [UnmarshalControlRequest, bind, Except.bind, hw]
  simp only [hs]
  rw [if_neg h1, if_neg h2, if_neg h3, if_neg h4, if_neg h5, if_neg h6]

theorem unmarshalControl_known (j : Json) (w : SDKControlRequest) (s : String)
    (hw : decodeSDKControlRequest j = .ok w)
    (hs : extractSubtype w.request = .ok s)
    (hmem : s ∈ [SubtypeInterrupt, SubtypeCanUseTool, SubtypeInitialize,
      SubtypeSetPermissionMode, SubtypeHookCallback, SubtypeMCPMessage])
    (hok : decodeVariantOk s w.request = true) :
    ∃ r, UnmarshalControlRequest j = .ok r ∧
      r.tag = s ∧ r.requestID = w.id ∧ r.envelope = w := by
  simp only [List.mem_cons, List.not_mem_nil, or_false] at hmem
  simp only [UnmarshalControlRequest, bind, Except.bind, hw, hs]
  rcases hmem with rfl | rfl | rfl | rfl | rfl | rfl
  · rw [if_pos rfl]
    simp only [decodeVariantOk, if_pos rfl] at hok
    cases hd : decodeInterruptRequest w.request with
    | ok r => exact ⟨.interrupt w r, rfl, rfl, rfl, rfl⟩
    | error e => rw [hd] at hok; simp [isOkB] at hok
  · rw [if_neg (by decide), if_pos rfl]
    simp only [decodeVariantOk, if_neg (by decide : ¬SubtypeCanUseTool = SubtypeInterrupt), if_pos rfl] at hok
    cases hd : decodePermissionRequest w.request with
    | ok r => exact ⟨.permission w r, rfl, rfl, rfl, rfl⟩
    | error e => rw [hd] at hok; simp [isOkB] at hok
  · rw [if_neg (by decide), if_neg (by decide), if_pos rfl]
    simp only [decodeVariantOk, if_neg (by decide : ¬SubtypeInitialize = SubtypeInterrupt),
      if_neg (by decide : ¬SubtypeInitialize = SubtypeCanUseTool), if_pos rfl] at hok
    cases hd : decodeInitializeRequest w.request with
    | ok r => exact ⟨.initCtl w r, rfl, rfl, rfl, rfl⟩
    | error e => rw [hd] at hok; simp [isOkB] at hok
  · rw [if_neg (by decide), if_neg (by decide), if_neg (by decide), if_pos rfl]
    simp only [decodeVariantOk,
      if_neg (by decide : ¬SubtypeSetPermissionMode = SubtypeInterrupt),
      if_neg (by decide : ¬SubtypeSetPermissionMode = SubtypeCanUseTool),
      if_neg (by decide : ¬SubtypeSetPermissionMode = SubtypeInitialize),
      if_pos rfl] at hok
    cases hd : decodeSetPermissionModeRequest w.request with
    | ok r => exact ⟨.setPermissionMode w r, rfl, rfl, rfl, rfl⟩
    | error e => rw [hd] at hok; simp [isOkB] at hok
  · rw [if_neg (by decide), if_neg (by decide), if_neg (by decide),
      if_neg (by decide), if_pos rfl]
    simp only [decodeVariantOk,
      if_neg (by decide : ¬SubtypeHookCallback = SubtypeInterrupt),
      if_neg (by decide : ¬SubtypeHookCallback = SubtypeCanUseTool),
      if_neg (by decide : ¬SubtypeHookCallback = SubtypeInitialize),
      if_neg (by decide : ¬SubtypeHookCallback = SubtypeSetPermissionMode),
      if_pos rfl] at hok
    cases hd : decodeHookCallbackRequest w.request with
    | ok r => exact ⟨.hookCallback w r, rfl, rfl, rfl, rfl⟩
    | error e => rw [hd] at hok; simp [isOkB] at hok
  · rw [if_neg (by decide), if_neg (by decide), if_neg (by decide),
      if_neg (by decide), if_neg (by decide), if_pos rfl]
    simp only [decodeVariantOk,
      if_neg (by decide : ¬SubtypeMCPMessage = SubtypeInterrupt),
      if_neg (by decide : ¬SubtypeMCPMessage = SubtypeCanUseTool),
      if_neg (by decide : ¬SubtypeMCPMessage = SubtypeInitialize),
      if_neg (by decide : ¬SubtypeMCPMessage = SubtypeSetPermissionMode),
      if_neg (by decide : ¬SubtypeMCPMessage = SubtypeHookCallback),
      if_pos rfl] at hok
    cases hd : decodeMCPMessageRequest w.request with
    | ok r => exact ⟨.mcpMessage w r, rfl, rfl, rfl, rfl⟩
    | error e => rw [hd] at hok; simp [isOkB] at hok

theorem decodeEnvelope_eq (ot : Option String) (rid : String) (req : Json) :
    decodeSDKControlRequest (controlEnvelope ot rid req) =
      .ok ⟨ot.getD "", rid, req⟩ := by
  cases ot <;> rfl


/-- C4 (corrected): when a single well-formed JSON object larger than
`max_buffer_size` arrives as one scanner line, the framer emits exactly
one json-decode error whose text states the byte limit, emits no message
for it, resets the accumulator, and processes the rest of the stream
exactly as a fresh framer would.  (As stated over arbitrary chunkings the
claim fails: once the limit fires mid-object, the object's tail is left
in or re-enters the accumulator, so a second error can fire and
subsequent valid messages need not decode; see the counterexample.) -/
theorem oversizeSingleLine (maxBuf : Nat) (line : List Char)
    (rest : List (List Char))
    (htrim : trimChars line = line) (hne : line ≠ [])
    (hnl : ('\n') ∉ line) (hlen : line.length > maxBuf) :
    runFramer maxBuf (line :: rest) =
      ⟨(runFramer maxBuf rest).jsonBuffer,
       (runFramer maxBuf rest).messages,
       oversizeErr maxBuf line.length :: (runFramer maxBuf rest).errors⟩ := by
  have h1 : procLine maxBuf ⟨[], [], []⟩ line =
      ⟨[], [], [oversizeErr maxBuf line.length]⟩ := by
    simp only [procLine]
    rw [htrim, if_neg hne, splitNl_no_newline line hnl]
    simp only [List.foldl_cons, List.foldl_nil]
    rw [htrim, if_neg hne]
    simp only [procFragment]
    simp only [List.nil_append]
    rw [if_pos hlen]
  show (line :: rest).foldl (procLine maxBuf) ⟨[], [], []⟩ = _
  simp only [List.foldl_cons]
  rw [h1]
  rw [foldl_shift (procLine maxBuf) (procLine_shift maxBuf) rest []
    [] [oversizeErr maxBuf line.length]]
  rfl

/-- C1 (corrected): for every message value and content-block value
outside the two encode-collapse cases (a result message whose `usage` is
the non-nil empty map, which `omitempty` omits, and a `tool_result`
whose non-nil `content` interface marshals to JSON null, which decoding
collapses into the nil interface), decoding the document produced by
encoding succeeds and yields a value equal to the input on all defined
(non-discriminator) fields, and the encoded document always carries the
canonical `type` string of the variant.  As stated over every value of
each variant the claim fails: both excluded shapes are real Go values —
the empty `usage` map is even reachable by decoding — and each decodes,
after encoding, to a value differing on a defined field; see the
counterexample. -/
theorem messageCodecRoundTrip (m : Message) (b : ContentBlock)
    (hm : wfMessage m = true) (hb : wfBlock b = true) :
    UnmarshalMessage (MarshalMessage m).2 = .ok (MarshalMessage m).1 ∧
    msgEqDefined m (MarshalMessage m).1 = true ∧
    jsonTypeField (MarshalMessage m).2 = some (.str m.tag) ∧
    UnmarshalContentBlock (MarshalContentBlock b).2 =
      .ok (MarshalContentBlock b).1 ∧
    blockEqDefined b (MarshalContentBlock b).1 = true ∧
    jsonTypeField (MarshalContentBlock b).2 = some (.str b.tag) :=
  ⟨msgRoundTrip m hm, msgEqDefined_marshal m, marshalMessage_typeField m,
   blockRoundTrip b hb, blockEqDefined_marshal b, marshalBlock_typeField b⟩

def c1CexMessage : Message :=
  .result ⟨"result", "s", 0, 0, false, 0, "", none, some [], none⟩

def c1CexBlock : ContentBlock := .toolResult ⟨"tool_result", "t", some .null, none⟩

theorem messageCodecRoundTrip_cex :
    UnmarshalMessage (.obj [("type", Json.str "result"), ("usage", Json.obj [])]) =
      .ok (.result ⟨"result", "", 0, 0, false, 0, "", none, some [], none⟩) ∧
    UnmarshalMessage (MarshalMessage c1CexMessage).2 =
      .ok (.result ⟨"result", "s", 0, 0, false, 0, "", none, none, none⟩) ∧
    msgEqDefined c1CexMessage
      (.result ⟨"result", "s", 0, 0, false, 0, "", none, none, none⟩) = false ∧
    UnmarshalContentBlock (MarshalContentBlock c1CexBlock).2 =
      .ok (.toolResult ⟨"tool_result", "t", none, none⟩) ∧
    blockEqDefined c1CexBlock (.toolResult ⟨"tool_result", "t", none, none⟩) =
      false := by decide

def c1SampleMessage : Message :=
  .user ⟨"wrong", .blocks [.text ⟨"", "Hello, world!"⟩,
    .toolUse ⟨"", "t1", "calc", some [("x", .num 1)]⟩], some "par"⟩

def c1SampleBlock : ContentBlock :=
  .toolResult ⟨"junk", "t9", some (.str "out"), some true⟩

theorem messageCodecRoundTrip_witness :
    (wfMessage c1SampleMessage = true ∧ wfBlock c1SampleBlock = true) ∧
    (UnmarshalMessage (MarshalMessage c1SampleMessage).2 =
        .ok (MarshalMessage c1SampleMessage).1 ∧
      msgEqDefined c1SampleMessage (MarshalMessage c1SampleMessage).1 = true ∧
      jsonTypeField (MarshalMessage c1SampleMessage).2 =
        some (.str c1SampleMessage.tag) ∧
      UnmarshalContentBlock (MarshalContentBlock c1SampleBlock).2 =
        .ok (MarshalContentBlock c1SampleBlock).1 ∧
      blockEqDefined c1SampleBlock (MarshalContentBlock c1SampleBlock).1 = true ∧
      jsonTypeField (MarshalContentBlock c1SampleBlock).2 =
        some (.str c1SampleBlock.tag)) :=
  ⟨⟨by decide, by decide⟩,
   messageCodecRoundTrip c1SampleMessage c1SampleBlock (by decide) (by decide)⟩

/-- C2: a message document whose `type` string is outside the closed
message set, a content-block document whose `type` is outside the block
set, and a control-request envelope whose nested `subtype` is outside the
six-subtype set are each rejected with a message-parse error whose text
carries the offending discriminator. -/
theorem unknownDiscriminatorRejected
    (fs gs : List (String × Json)) (t u : String)
    (ot : Option String) (rid : String) (req : Json) (s : String)
    (ht : getField fs "type" = some (.str t))
    (htm : t ∉ [MessageTypeUser, MessageTypeAssistant, MessageTypeSystem,
      MessageTypeResult, MessageTypeStreamEvent])
    (hu : getField gs "type" = some (.str u))
    (hum : u ∉ [ContentTypeText, ContentTypeThinking, ContentTypeToolUse,
      ContentTypeToolResult])
    (hs : extractSubtype req = .ok s)
    (hsm : s ∉ [SubtypeInterrupt, SubtypeCanUseTool, SubtypeInitialize,
      SubtypeSetPermissionMode, SubtypeHookCallback, SubtypeMCPMessage]) :
    UnmarshalMessage (.obj fs) =
      .error (.mk .messageParse ("unknown message type: " ++ t)) ∧
    UnmarshalContentBlock (.obj gs) =
      .error (.mk .messageParse ("unknown content block type: " ++ u)) ∧
    UnmarshalControlRequest (controlEnvelope ot rid req) =
      .error (.mk .messageParse ("unknown control request subtype: " ++ s)) := by
  simp only [List.mem_cons, List.not_mem_nil, or_false, not_or] at htm hum hsm
  obtain ⟨t1, t2, t3, t4, t5⟩ := htm
  obtain ⟨u1, u2, u3, u4⟩ := hum
  obtain ⟨s1, s2, s3, s4, s5, s6⟩ := hsm
  refine ⟨?_, ?_, ?_⟩
  · have hp : peekType (.obj fs) = some t := by
      simp [peekType, getStrDefault, ht]
    simp only [UnmarshalMessage, hp]
    rw [if_neg t1, if_neg t2, if_neg t3, if_neg t4, if_neg t5]
  · have hp : peekType (.obj gs) = some u := by
      simp [peekType, getStrDefault, hu]
    simp only [UnmarshalContentBlock, hp]
    rw [if_neg u1, if_neg u2, if_neg u3, if_neg u4]
  · exact unmarshalControl_unknown _ _ s (decodeEnvelope_eq ot rid req) hs
      s1 s2 s3 s4 s5 s6

theorem unknownDiscriminatorRejected_witness :
    (getField [("type", Json.str "xyz")] "type" = some (.str "xyz") ∧
     "xyz" ∉ [MessageTypeUser, MessageTypeAssistant, MessageTypeSystem,
       MessageTypeResult, MessageTypeStreamEvent] ∧
     getField [("type", Json.str "bogus")] "type" = some (.str "bogus") ∧
     "bogus" ∉ [ContentTypeText, ContentTypeThinking, ContentTypeToolUse,
       ContentTypeToolResult] ∧
     extractSubtype (.obj [("subtype", Json.str "weird")]) = .ok "weird" ∧
     "weird" ∉ [SubtypeInterrupt, SubtypeCanUseTool, SubtypeInitialize,
       SubtypeSetPermissionMode, SubtypeHookCallback, SubtypeMCPMessage]) ∧
    (UnmarshalMessage (.obj [("type", Json.str "xyz")]) =
      .error (.mk .messageParse ("unknown message type: " ++ "xyz")) ∧
    UnmarshalContentBlock (.obj [("type", Json.str "bogus")]) =
      .error (.mk .messageParse ("unknown content block type: " ++ "bogus")) ∧
    UnmarshalControlRequest (controlEnvelope (some "control_request") "r1"
        (.obj [("subtype", Json.str "weird")])) =
      .error (.mk .messageParse ("unknown control request subtype: " ++ "weird"))) :=
  ⟨⟨by decide, by decide, by decide, by decide, by decide, by decide⟩,
   unknownDiscriminatorRejected [("type", Json.str "xyz")]
     [("type", Json.str "bogus")] "xyz" "bogus"
     (some "control_request") "r1" (.obj [("subtype", Json.str "weird")]) "weird"
     (by decide) (by decide) (by decide) (by decide) (by decide) (by decide)⟩

/-- C3 (corrected): when the root `type` field is present but neither a
string nor `null`, `UnmarshalMessage` returns a json-decode error, as the
claim says; but when `type` is absent (or explicitly `null`), Go's
decoder leaves the zero value `""` and the dispatch returns a
*message-parse* error for the unknown empty type, not a json-decode
error. -/
theorem absentTypeClassification (fs gs : List (String × Json)) (v : Json)
    (hfs : getField fs "type" = none ∨ getField fs "type" = some .null)
    (hgs : getField gs "type" = some v)
    (hvs : ∀ x, v ≠ .str x) (hvn : v ≠ .null) :
    UnmarshalMessage (.obj fs) =
      .error (.mk .messageParse "unknown message type: ") ∧
    UnmarshalMessage (.obj gs) =
      .error (.wrap .jsonDecode "failed to decode message type"
        unmarshalTypeError) := by
  constructor
  · have hp : peekType (.obj fs) = some "" := by
      rcases hfs with h | h <;> simp [peekType, getStrDefault, h]
    simp only [UnmarshalMessage, hp]
    rw [if_neg (by decide), if_neg (by decide), if_neg (by decide),
      if_neg (by decide), if_neg (by decide)]
    rfl
  · have hp : peekType (.obj gs) = none := by
      cases v <;>
        first
          | exact absurd rfl hvn
          | exact absurd rfl (hvs _)
          | simp [peekType, getStrDefault, hgs]
    simp only [UnmarshalMessage, hp]

theorem absentTypeClassification_cex :
    UnmarshalMessage (Json.obj [("subtype", Json.str "boot")]) =
      .error (.mk .messageParse "unknown message type: ") ∧
    (GoError.mk .messageParse "unknown message type: ").kind ≠
      some ErrKind.jsonDecode := by decide

theorem absentTypeClassification_witness :
    ((getField [("subtype", Json.str "x")] "type" = none ∨
      getField [("subtype", Json.str "x")] "type" = some Json.null) ∧
     getField [("type", Json.bool true)] "type" = some (Json.bool true) ∧
     (∀ x, Json.bool true ≠ Json.str x) ∧ Json.bool true ≠ Json.null) ∧
    (UnmarshalMessage (.obj [("subtype", Json.str "x")]) =
      .error (.mk .messageParse "unknown message type: ") ∧
    UnmarshalMessage (.obj [("type", Json.bool true)]) =
      .error (.wrap .jsonDecode "failed to decode message type"
        unmarshalTypeError)) :=
  ⟨⟨Or.inl (by decide), by decide, fun x h => Json.noConfusion h, by decide⟩,
   absentTypeClassification [("subtype", Json.str "x")]
     [("type", Json.bool true)] (.bool true)
     (Or.inl (by decide)) (by decide) (fun x h => Json.noConfusion h) (by decide)⟩

def c4Stream : String := "\x7b\"type\":\"system\",\"subtype\":\"s\",\"data\":\x7b\x7d\x7d"

theorem oversizeSingleLine_cex :
    (parseMapTop c4Stream.toList).isSome = true ∧
    c4Stream.toList.length = 41 ∧
    (c4Stream.toList.take 12 ++ ((c4Stream.toList.drop 12).take 12) ++
      c4Stream.toList.drop 24 = c4Stream.toList) ∧
    (runFramer 16 [c4Stream.toList.take 12, (c4Stream.toList.drop 12).take 12,
      c4Stream.toList.drop 24]).errors.length = 2 ∧
    (runFramer 16 [c4Stream.toList.take 12, (c4Stream.toList.drop 12).take 12,
      c4Stream.toList.drop 24]).messages = [] := by decide

def c4WitnessLine : String := "\x7b\"type\":\"system\"\x7d"

def c4WitnessRest : String := "\x7b\"type\":\"user\"\x7d"

theorem oversizeSingleLine_witness :
    (trimChars c4WitnessLine.toList = c4WitnessLine.toList ∧
     c4WitnessLine.toList ≠ [] ∧ ('\n') ∉ c4WitnessLine.toList ∧
     c4WitnessLine.toList.length > 16) ∧
    runFramer 16 [c4WitnessLine.toList, c4WitnessRest.toList] =
      ⟨(runFramer 16 [c4WitnessRest.toList]).jsonBuffer,
       (runFramer 16 [c4WitnessRest.toList]).messages,
       oversizeErr 16 c4WitnessLine.toList.length ::
         (runFramer 16 [c4WitnessRest.toList]).errors⟩ :=
  ⟨⟨by decide, by decide, by decide, by decide⟩,
   oversizeSingleLine 16 c4WitnessLine.toList [c4WitnessRest.toList]
     (by decide) (by decide) (by decide) (by decide)⟩

/-- C5 (corrected): a single well-formed JSON object no larger than
`max_buffer_size`, split into newline-terminated chunks none of which
begins or ends with whitespace (each chunk survives the framer's
per-fragment `TrimSpace` unchanged), yields exactly one decoded message,
equal to decoding the unsplit object, and no errors.  The
proper-prefix-does-not-parse hypothesis is the formal rendering of
"single well-formed JSON object": a complete JSON document among the
prefixes would make the stream contain more than one object.  (As stated
over arbitrary byte chunkings the claim fails: the framer trims each
fragment, so a split adjacent to whitespace inside a string literal
changes the decoded message; see the counterexample.) -/
theorem chunkedAccumulation (maxBuf : Nat) (chunks : List (List Char))
    (s : List Char) (j : Json) (m : Message)
    (hne : chunks ≠ [])
    (hch : ∀ c ∈ chunks, c ≠ [] ∧ ('\n') ∉ c ∧ trimChars c = c)
    (hjoin : chunks.flatten = s)
    (hlen : s.length ≤ maxBuf)
    (hpre : ∀ i, i < s.length → parseMapTop (List.take i s) = none)
    (hparse : parseMapTop s = some j)
    (hmsg : UnmarshalMessage j = .ok m) :
    runFramer maxBuf chunks = ⟨[], [m], []⟩ :=
  framerChunkInduction maxBuf s j m hlen hpre hparse hmsg chunks [] hne hch
    (by simpa using hjoin)

def c5CorruptWhole : String := "\x7b\"type\":\"system\",\"subtype\":\"a b\",\"data\":\x7b\x7d\x7d"

def c5CorruptA : String := "\x7b\"type\":\"system\",\"subtype\":\"a "

def c5CorruptB : String := "b\",\"data\":\x7b\x7d\x7d"

theorem chunkedAccumulation_cex :
    c5CorruptA.toList ++ c5CorruptB.toList = c5CorruptWhole.toList ∧
    (parseMapTop c5CorruptWhole.toList).map UnmarshalMessage =
      some (.ok (.system ⟨"system", "a b", some []⟩)) ∧
    (runFramer 1024 [c5CorruptA.toList, c5CorruptB.toList]).messages =
      [.system ⟨"system", "ab", some []⟩] ∧
    (runFramer 1024 [c5CorruptA.toList, c5CorruptB.toList]).errors = [] ∧
    Message.system ⟨"system", "ab", some []⟩ ≠
      .system ⟨"system", "a b", some []⟩ := by
  refine ⟨by decide, by decide, by decide, by decide, by decide⟩

def c5WitnessWhole : String := "\x7b\"type\":\"user\",\"content\":\"hi\"\x7d"

theorem chunkedAccumulation_witness :
    (([c5WitnessWhole.toList.take 10, (c5WitnessWhole.toList.drop 10).take 10,
        c5WitnessWhole.toList.drop 20] : List (List Char)) ≠ [] ∧
     (∀ c ∈ ([c5WitnessWhole.toList.take 10,
        (c5WitnessWhole.toList.drop 10).take 10,
        c5WitnessWhole.toList.drop 20] : List (List Char)),
        c ≠ [] ∧ ('\n') ∉ c ∧ trimChars c = c) ∧
     ([c5WitnessWhole.toList.take 10, (c5WitnessWhole.toList.drop 10).take 10,
        c5WitnessWhole.toList.drop 20] : List (List Char)).flatten =
       c5WitnessWhole.toList ∧
     c5WitnessWhole.toList.length ≤ 1024 ∧
     (∀ i, i < c5WitnessWhole.toList.length →
       parseMapTop (List.take i c5WitnessWhole.toList) = none) ∧
     parseMapTop c5WitnessWhole.toList =
       some (.obj [("type", .str "user"), ("content", .str "hi")]) ∧
     UnmarshalMessage (.obj [("type", .str "user"), ("content", .str "hi")]) =
       .ok (.user ⟨"user", .str "hi", none⟩)) ∧
    runFramer 1024 [c5WitnessWhole.toList.take 10,
      (c5WitnessWhole.toList.drop 10).take 10,
      c5WitnessWhole.toList.drop 20] =
      ⟨[], [.user ⟨"user", .str "hi", none⟩], []⟩ :=
  ⟨⟨by decide, by decide, by decide, by decide, by decide, by decide, by decide⟩,
   chunkedAccumulation 1024
     [c5WitnessWhole.toList.take 10, (c5WitnessWhole.toList.drop 10).take 10,
       c5WitnessWhole.toList.drop 20]
     c5WitnessWhole.toList
     (.obj [("type", .str "user"), ("content", .str "hi")])
     (.user ⟨"user", .str "hi", none⟩)
     (by decide) (by decide) (by decide) (by decide) (by decide) (by decide)
     (by decide)⟩

/-- C6: `Validate` returns an error when `resume` is set together with
`continue_conversation`, when `cwd` or `cli_path` is set to a path whose
stat reports not-exists, and when `permission_mode` is outside the four
modes; on a snapshot violating none of these rules it returns nil. -/
theorem validateBehaviour (statExists : String → Bool) (o : ClaudeAgentOptions) :
    ((o.resume.isSome && o.continueConversation) = true →
      (Validate statExists o).isSome = true) ∧
    (∀ c, o.cwd = some c → statExists c = false →
      (Validate statExists o).isSome = true) ∧
    (∀ c, o.cliPath = some c → statExists c = false →
      (Validate statExists o).isSome = true) ∧
    (∀ m, o.permissionMode = some m →
      m ≠ PermissionModeDefault → m ≠ PermissionModeAcceptEdits →
      m ≠ PermissionModePlan → m ≠ PermissionModeBypassPermission →
      (Validate statExists o).isSome = true) ∧
    ((o.resume.isSome && o.continueConversation) = false →
      (∀ c, o.cwd = some c → statExists c = true) →
      (∀ c, o.cliPath = some c → statExists c = true) →
      (∀ m, o.permissionMode = some m →
        m = PermissionModeDefault ∨ m = PermissionModeAcceptEdits ∨
        m = PermissionModePlan ∨ m = PermissionModeBypassPermission) →
      Validate statExists o = none) := by
  obtain ⟨r, cc, cw, cp, pm⟩ := o
  refine ⟨?_, ?_, ?_, ?_, ?_⟩
  · intro h
    simp [Validate, h]
  · intro c hcw hex
    subst hcw
    by_cases hrc : (r.isSome && cc) = true
    · simp [Validate, hrc]
    · simp [Validate, hrc, validateCWD, hex]
  · intro c hcl hex
    subst hcl
    by_cases hrc : (r.isSome && cc) = true
    · simp [Validate, hrc]
    · cases hc : cw with
      | none => simp [Validate, hrc, validateCWD, hc, validateCLIPath, hex]
      | some c0 =>
        by_cases he0 : statExists c0 = true
        · simp [Validate, hrc, validateCWD, hc, he0, validateCLIPath, hex]
        · simp [Validate, hrc, validateCWD, hc,
            (by simpa using he0 : statExists c0 = false)]
  · intro m hpm hm1 hm2 hm3 hm4
    subst hpm
    have hvpm : ∀ (r' : Option String) (cc' : Bool) (cw' cp' : Option String),
        (validatePermissionMode ⟨r', cc', cw', cp', some m⟩).isSome = true := by
      intro r' cc' cw' cp'
      simp [validatePermissionMode, hm1, hm2, hm3, hm4]
    by_cases hrc : (r.isSome && cc) = true
    · simp [Validate, hrc]
    · cases hc : cw with
      | none =>
        cases hl : cp with
        | none =>
          simp only [Validate, hrc, if_false, validateCWD, validateCLIPath]
          exact hvpm r cc none none
        | some c1 =>
          by_cases he1 : statExists c1 = true
          · simp only [Validate, hrc, if_false, validateCWD, validateCLIPath,
              he1, Bool.not_true, if_false]
            exact hvpm r cc none (some c1)
          · simp [Validate, hrc, validateCWD, validateCLIPath,
              (by simpa using he1 : statExists c1 = false)]
      | some c0 =>
        by_cases he0 : statExists c0 = true
        · cases hl : cp with
          | none =>
            simp only [Validate, hrc, if_false, validateCWD, validateCLIPath,
              he0, Bool.not_true, if_false]
            exact hvpm r cc (some c0) none
          | some c1 =>
            by_cases he1 : statExists c1 = true
            · simp only [Validate, hrc, if_false, validateCWD, validateCLIPath,
                he0, he1, Bool.not_true, if_false]
              exact hvpm r cc (some c0) (some c1)
            · simp [Validate, hrc, validateCWD, he0, validateCLIPath,
                (by simpa using he1 : statExists c1 = false)]
        · simp [Validate, hrc, validateCWD,
            (by simpa using he0 : statExists c0 = false)]
  · intro hrc hcw hcl hpm
    have hvpm : validatePermissionMode ⟨r, cc, cw, cp, pm⟩ = none := by
      cases hm : pm with
      | none => simp [validatePermissionMode]
      | some m =>
        rcases hpm m hm with rfl | rfl | rfl | rfl <;>
          simp [validatePermissionMode]
    have hvcl : validateCLIPath statExists ⟨r, cc, cw, cp, pm⟩ = none := by
      cases hl : cp with
      | none => simpa [validateCLIPath, hl] using hvpm
      | some c1 => simpa [validateCLIPath, hl, hcl c1 hl] using hvpm
    have hvcw : validateCWD statExists ⟨r, cc, cw, cp, pm⟩ = none := by
      cases hc : cw with
      | none => simpa [validateCWD, hc] using hvcl
      | some c0 => simpa [validateCWD, hc, hcw c0 hc] using hvcl
    simp [Validate, hrc, hvcw]

theorem write_poisoned (st : TransportWriteState) (a b : Bool)
    (h : Poisoned st = true) :
    isConnError (Write st a b).1 = true ∧ (Write st a b).2 = st := by
  obtain ⟨r, hw, pe, ec, ee⟩ := st
  simp only [Poisoned, Bool.or_eq_true, Bool.not_eq_true'] at h
  rcases h with ((hr | hhw) | hpe) | hee
  · subst hr; simp [Write, isConnError, GoError.kind]
  · subst hhw; cases r <;> simp [Write, isConnError, GoError.kind]
  · subst hpe
    cases r <;> cases hw <;> simp [Write, isConnError, GoError.kind]
  · cases ee with
    | none => simp at hee
    | some e =>
      cases r <;> cases hw <;> cases pe <;>
        simp [Write, isConnError, GoError.kind]

theorem writeSeq_poisoned (st : TransportWriteState) (h : Poisoned st = true) :
    ∀ ios, ((writeSeq st ios).1.all isConnError) = true := by
  intro ios
  induction ios with
  | nil => simp [writeSeq]
  | cons io ios ih =>
    have hp := write_poisoned st io.1 io.2 h
    simp only [writeSeq, List.all_cons, Bool.and_eq_true]
    exact ⟨hp.1, by rw [hp.2]; exact ih⟩

/-- C7 (corrected): any error from `Write` leaves the transport
permanently unable to write — the state is poisoned and every later
`Write` (over any sequence of I/O outcomes) returns a cli-connection
error with the state unchanged; when the recorded exit error is hit while
the transport is still marked ready (the child-exit path), the returned
error wraps that exit error; and a non-zero child exit observed by the
reader loop poisons the state.  (As stated the claim fails: after a
write/flush failure the not-ready check fires first and the returned
cli-connection error carries no reference to the recorded exit error; see
the counterexample.) -/
theorem writePoisoning (st : TransportWriteState) (writeOk flushOk : Bool) :
    ((Write st writeOk flushOk).1 ≠ .ok () →
      Poisoned (Write st writeOk flushOk).2 = true) ∧
    (Poisoned st = true →
      isConnError (Write st writeOk flushOk).1 = true ∧
      (Write st writeOk flushOk).2 = st) ∧
    (∀ ex, st.ready = true → st.hasWriter = true → st.processExited = false →
      st.exitError = some ex →
      (Write st writeOk flushOk).1 =
        .error (.wrap .cliConnection
          ("cannot write to process that exited with error: " ++ ex.render) ex)) ∧
    (Poisoned st = true →
      ∀ ios, ((writeSeq st ios).1.all isConnError) = true) ∧
    (∀ code, code ≠ 0 → Poisoned (readerLoopExit st code) = true) := by
  refine ⟨?_, fun hp => write_poisoned st _ _ hp, ?_, fun hp => writeSeq_poisoned st hp, ?_⟩
  · intro h
    by_cases hp : Poisoned st = true
    · rw [(write_poisoned st _ _ hp).2]; exact hp
    · obtain ⟨r, hw, pe, ec, ee⟩ := st
      simp only [Poisoned, Bool.or_eq_true, not_or, Bool.not_eq_true,
        Bool.not_eq_false'] at hp
      obtain ⟨⟨⟨hr, hhw⟩, hpe⟩, hee⟩ := hp
      subst hr; subst hhw; subst hpe
      cases ee with
      | some e => simp at hee
      | none =>
        cases writeOk with
        | false => simp [Write, Poisoned]
        | true =>
          cases flushOk with
          | false => simp [Write, Poisoned]
          | true => exact absurd rfl h
  · intro ex h1 h2 h3 h4
    obtain ⟨r, hw, pe, ec, ee⟩ := st
    simp only at h1 h2 h3 h4
    subst h1; subst h2; subst h3; subst h4
    simp [Write]
  · intro code hc
    obtain ⟨r, hw, pe, ec, ee⟩ := st
    simp [readerLoopExit, hc, Poisoned]

/-- C8: `MarshalControlResponse` of `NewSuccessResponse` /
`NewErrorResponse` produces an envelope with `type` equal to
`control_response` and a nested response carrying the request id; the
success body has subtype `success` and no `error` field, and the error
body has subtype `error` with the error string and no payload mapping. -/
theorem controlResponseShape (rid errMsg : String) (payload : Option (List (String × Json))) :
    (∃ ifs,
      MarshalControlResponse (NewSuccessResponse rid payload) =
        .ok (.obj [("type", .str ControlTypeResponse), ("response", .obj ifs)]) ∧
      getField ifs "subtype" = some (.str ControlResponseTypeSuccess) ∧
      getField ifs "request_id" = some (.str rid) ∧
      getField ifs "error" = none) ∧
    (∃ ifs,
      MarshalControlResponse (NewErrorResponse rid errMsg) =
        .ok (.obj [("type", .str ControlTypeResponse), ("response", .obj ifs)]) ∧
      getField ifs "subtype" = some (.str ControlResponseTypeError) ∧
      getField ifs "request_id" = some (.str rid) ∧
      getField ifs "error" = some (.str errMsg) ∧
      getField ifs "response" = none) := by
  constructor
  · cases payload with
    | none => exact ⟨_, rfl, rfl, rfl, rfl⟩
    | some l =>
      cases l with
      | nil => exact ⟨_, rfl, rfl, rfl, rfl⟩
      | cons x xs => exact ⟨_, rfl, rfl, rfl, rfl⟩
  · exact ⟨_, rfl, rfl, rfl, rfl, rfl⟩

theorem marshalBlock_tagCanon (b : ContentBlock) :
    blockTagCanon (MarshalContentBlock b).1 = true := by
  cases b <;> rfl

theorem marshalBlocksList_canon (bs : List ContentBlock) :
    ((marshalContentBlocks bs).1.all blockTagCanon) = true := by
  induction bs with
  | nil => rfl
  | cons b rest ih =>
    rw [marshalContentBlocks_cons]
    simp [marshalBlock_tagCanon, ih]

theorem marshalBlock_storedType (b : ContentBlock) :
    (MarshalContentBlock b).1.storedType = b.tag := by
  cases b <;> rfl

theorem marshalMsg_storedType (m : Message) :
    (MarshalMessage m).1.storedType = m.tag := by
  cases m with
  | user u =>
    obtain ⟨t, c, p⟩ := u
    cases c with
    | str s => rfl
    | other j => rfl
    | blocks bs =>
      rw [show MarshalMessage (.user ⟨t, .blocks bs, p⟩) =
          (.user ⟨MessageTypeUser, .blocks (marshalContentBlocks bs).1, p⟩,
            .obj ([("type", .str MessageTypeUser),
                   ("content", .arr (marshalContentBlocks bs).2)] ++
              encOptStr "parent_tool_use_id" p)) from by
        simp [MarshalMessage, marshalUserMessage_blocks]]
      rfl
  | assistant a =>
    obtain ⟨t, bs, mdl, p⟩ := a
    rw [show MarshalMessage (.assistant ⟨t, bs, mdl, p⟩) =
        (.assistant ⟨MessageTypeAssistant, (marshalContentBlocks bs).1, mdl, p⟩,
          .obj ([("type", .str MessageTypeAssistant),
                 ("content", .arr (marshalContentBlocks bs).2),
                 ("model", .str mdl)] ++
            encOptStr "parent_tool_use_id" p)) from by
      simp [MarshalMessage, marshalAssistantMessage_eq]]
    rfl
  | system s => rfl
  | result r => rfl
  | streamEvent e => rfl

theorem marshalMsg_blocksCanon (m : Message) :
    msgBlocksCanon (MarshalMessage m).1 = true := by
  cases m with
  | user u =>
    obtain ⟨t, c, p⟩ := u
    cases c with
    | str s => rfl
    | other j => rfl
    | blocks bs =>
      rw [show MarshalMessage (.user ⟨t, .blocks bs, p⟩) =
          (.user ⟨MessageTypeUser, .blocks (marshalContentBlocks bs).1, p⟩,
            .obj ([("type", .str MessageTypeUser),
                   ("content", .arr (marshalContentBlocks bs).2)] ++
              encOptStr "parent_tool_use_id" p)) from by
        simp [MarshalMessage, marshalUserMessage_blocks]]
      simp [msgBlocksCanon, marshalBlocksList_canon]
  | assistant a =>
    obtain ⟨t, bs, mdl, p⟩ := a
    rw [show MarshalMessage (.assistant ⟨t, bs, mdl, p⟩) =
        (.assistant ⟨MessageTypeAssistant, (marshalContentBlocks bs).1, mdl, p⟩,
          .obj ([("type", .str MessageTypeAssistant),
                 ("content", .arr (marshalContentBlocks bs).2),
                 ("model", .str mdl)] ++
            encOptStr "parent_tool_use_id" p)) from by
      simp [MarshalMessage, marshalAssistantMessage_eq]]
    simp [msgBlocksCanon, marshalBlocksList_canon]
  | system s => rfl
  | result r => rfl
  | streamEvent e => rfl

/-- C10: `UnmarshalControlRequest` never inspects the envelope's outer
`type`: whenever the nested request carries a known subtype (and its
variant decode succeeds), decoding succeeds and returns the corresponding
variant wrapper with the same request id, for an outer `type` that is
absent or any string whatsoever. -/
theorem controlOuterTypeIgnored (ot : Option String) (rid : String) (req : Json)
    (s : String) (hs : extractSubtype req = .ok s)
    (hmem : s ∈ [SubtypeInterrupt, SubtypeCanUseTool, SubtypeInitialize,
      SubtypeSetPermissionMode, SubtypeHookCallback, SubtypeMCPMessage])
    (hok : decodeVariantOk s req = true) :
    ∃ w, UnmarshalControlRequest (controlEnvelope ot rid req) = .ok w ∧
      w.tag = s ∧ w.requestID = rid ∧ w.envelope = ⟨ot.getD "", rid, req⟩ := by
  exact unmarshalControl_known _ _ s (decodeEnvelope_eq ot rid req) hs hmem hok

def c6NoFS : String → Bool := fun _ => false

def c6Opts : ClaudeAgentOptions :=
  ⟨some "sid", true, some "/nope", some "/cli", some "weird"⟩

theorem validateBehaviour_witness :
    (c6Opts.resume.isSome && c6Opts.continueConversation) = true ∧
    (Validate c6NoFS c6Opts).isSome = true :=
  ⟨by decide, (validateBehaviour c6NoFS c6Opts).1 (by decide)⟩

def c7Healthy : TransportWriteState := ⟨true, true, false, 0, none⟩

theorem writePoisoning_cex :
    (Write c7Healthy false true).1 =
      .error (.wrap .cliConnection "failed to write to stdin"
        (.plain "write error")) ∧
    ((Write c7Healthy false true).2).exitError =
      some (.wrap .cliConnection "failed to write to stdin"
        (.plain "write error")) ∧
    (Write (Write c7Healthy false true).2 true true).1 =
      .error (.mk .cliConnection "transport is not ready for writing") ∧
    GoError.cause (.mk .cliConnection "transport is not ready for writing") =
      none := by decide

def c7ExitState : TransportWriteState :=
  ⟨true, true, false, 0, some (processExitErr 3)⟩

theorem writePoisoning_witness :
    (Poisoned c7ExitState = true) ∧
    isConnError (Write c7ExitState true true).1 = true ∧
    (Write c7ExitState true true).1 =
      .error (.wrap .cliConnection
        ("cannot write to process that exited with error: " ++
          (processExitErr 3).render) (processExitErr 3)) ∧
    ((writeSeq c7ExitState [(true, true), (false, true)]).1.all isConnError) =
      true :=
  ⟨by decide,
   ((writePoisoning c7ExitState true true).2.1 (by decide)).1,
   (writePoisoning c7ExitState true true).2.2.1 (processExitErr 3) rfl rfl rfl rfl,
   (writePoisoning c7ExitState true true).2.2.2.1 (by decide)
     [(true, true), (false, true)]⟩

/-- C9 (corrected): encoding mutates its argument in place, but only in
discriminators: the block passed to `MarshalContentBlock` comes back with
its `Type_` set to the canonical tag and all other fields unchanged; the
message passed to `MarshalMessage` comes back with its own `Type_`
canonical, all non-discriminator fields unchanged, and — beyond the
claim's wording — the discriminators of the content blocks reachable
through `content` are also set to their canonical tags, because the
blocks are mutated through shared pointers.  (As stated the claim fails
for messages carrying blocks with non-canonical tags; see the
counterexample.) -/
theorem marshalMutation (m : Message) (b : ContentBlock) :
    (MarshalContentBlock b).1.storedType = b.tag ∧
    blockEqDefined b (MarshalContentBlock b).1 = true ∧
    (MarshalMessage m).1.storedType = m.tag ∧
    msgEqDefined m (MarshalMessage m).1 = true ∧
    msgBlocksCanon (MarshalMessage m).1 = true :=
  ⟨marshalBlock_storedType b, blockEqDefined_marshal b,
   marshalMsg_storedType m, msgEqDefined_marshal m, marshalMsg_blocksCanon m⟩

def c9Sample : Message :=
  .assistant ⟨"assistant", [.text ⟨"zz", "hi"⟩], "m", none⟩

theorem marshalMutation_cex :
    (MarshalMessage c9Sample).1 ≠ c9Sample ∧
    c9Sample.storedType = c9Sample.tag ∧
    (MarshalMessage c9Sample).1 =
      .assistant ⟨"assistant", [.text ⟨"text", "hi"⟩], "m", none⟩ := by decide

def c10Request : Json :=
  .obj [("subtype", .str "set_permission_mode"), ("mode", .str "plan")]

theorem controlOuterTypeIgnored_witness :
    (extractSubtype c10Request = .ok "set_permission_mode" ∧
     "set_permission_mode" ∈ [SubtypeInterrupt, SubtypeCanUseTool,
       SubtypeInitialize, SubtypeSetPermissionMode, SubtypeHookCallback,
       SubtypeMCPMessage] ∧
     decodeVariantOk "set_permission_mode" c10Request = true) ∧
    (∃ w, UnmarshalControlRequest
        (controlEnvelope (some "totally_wrong") "r7" c10Request) = .ok w ∧
      w.tag = "set_permission_mode" ∧ w.requestID = "r7" ∧
      w.envelope = ⟨(some "totally_wrong").getD "", "r7", c10Request⟩) :=
  ⟨⟨by decide, by decide, by decide⟩,
   controlOuterTypeIgnored (some "totally_wrong") "r7" c10Request
     "set_permission_mode" (by decide) (by decide) (by decide)⟩
